import Mathlib

/-!
# Verification of the job-state reconciliation core of `Bewerbungsagent`

Shallow embedding of the identity-builder, URL canonicalization, timestamp
parsing and reminder logic of `src/bewerbungsagent/job_state.py`, and of the
reconciliation / notification operations of `src/tools/commands/mail_list.py`.

Conventions of the embedding:
* Python `str` is Lean `String`; a missing/`None` string field and the empty
  string are conflated where the source only ever tests truthiness
  (`x or y`, `if not x`), and kept apart (`Option String`) where the source
  distinguishes them (`last_sent_at`).
* Python dicts keyed by `job_uid` become association lists
  (`List (String × StateRecord)`), with dict assignment modelled by
  update-first-occurrence-or-append, which matches insertion-ordered dicts.
* `datetime` values are epoch seconds (`Int`); `timedelta.days` is floor
  division by 86400 (`Int.fdiv`), exactly Python's flooring semantics.
* Library functions used by the source (`hashlib.sha256`, `urllib.parse`,
  `datetime.fromisoformat`, `unicodedata.normalize`) are modelled explicitly;
  the scope of each model is documented at the definition.
-/

namespace Bewerbungsagent

/-! ## Python string primitives -/

/-- Python `a or b` on strings: `a` if truthy (non-empty), else `b`. -/
def pyOr (a b : String) : String := if a = "" then b else a

/-- Truthiness of an optional string (`None` and `""` are falsy). -/
def optTruthy : Option String → Bool
  | none => false
  | some s => s ≠ ""

/-- The ASCII/Latin-1 part of the character set Python `str.strip()` removes.
Unicode space characters beyond Latin-1 are outside the model's scope; the
program's fields are scraped Latin text. -/
def isPySpace (c : Char) : Bool :=
  c = ' ' ∨ c = '\t' ∨ c = '\n' ∨ c = '\r' ∨ c.toNat = 0x0b ∨ c.toNat = 0x0c ∨
    (0x1c ≤ c.toNat ∧ c.toNat ≤ 0x1f) ∨ c.toNat = 0x85 ∨ c.toNat = 0xa0

/-- `str.strip()` on a character list. -/
def stripChars (l : List Char) : List Char :=
  ((l.dropWhile isPySpace).reverse.dropWhile isPySpace).reverse

/-- Python `str.strip()`. -/
def pyStrip (s : String) : String := ⟨stripChars s.data⟩

/-- Python `str.lower()`, modelled for ASCII and the Latin-1 letters the
program encounters (`Ä` → `ä` etc.); other characters are left unchanged. -/
def pyLowerChar (c : Char) : Char :=
  let n := c.toNat
  if 65 ≤ n ∧ n ≤ 90 then Char.ofNat (n + 32)
  else if 0xc0 ≤ n ∧ n ≤ 0xde ∧ n ≠ 0xd7 then Char.ofNat (n + 32)
  else c

/-- Python `str.lower()` on strings (scope as `pyLowerChar`). -/
def pyLower (s : String) : String := ⟨s.data.map pyLowerChar⟩

/-! ## `_normalize_text` (job_state.py)

`unicodedata.normalize("NFKD", ·)` is modelled by a decomposition table for
the lowercase Latin-1 letters (sufficient for the German/French text the
scrapers produce after `str.lower()`); characters without a table entry are
left undecomposed, which is also NFKD's behaviour for them (`ß`, `æ`, `ø`
have no decomposition). Combining marks are the U+0300–U+036F block, which
contains every mark the table emits. -/

/-- NFKD decomposition of one (already lowercased) character, Latin-1 scope. -/
def nfkdChar (c : Char) : List Char :=
  let m : Nat → Char := Char.ofNat
  match c.toNat with
  | 0xe0 => ['a', m 0x300] | 0xe1 => ['a', m 0x301] | 0xe2 => ['a', m 0x302]
  | 0xe3 => ['a', m 0x303] | 0xe4 => ['a', m 0x308] | 0xe5 => ['a', m 0x30a]
  | 0xe7 => ['c', m 0x327]
  | 0xe8 => ['e', m 0x300] | 0xe9 => ['e', m 0x301] | 0xea => ['e', m 0x302]
  | 0xeb => ['e', m 0x308]
  | 0xec => ['i', m 0x300] | 0xed => ['i', m 0x301] | 0xee => ['i', m 0x302]
  | 0xef => ['i', m 0x308]
  | 0xf1 => ['n', m 0x303]
  | 0xf2 => ['o', m 0x300] | 0xf3 => ['o', m 0x301] | 0xf4 => ['o', m 0x302]
  | 0xf5 => ['o', m 0x303] | 0xf6 => ['o', m 0x308]
  | 0xf9 => ['u', m 0x300] | 0xfa => ['u', m 0x301] | 0xfb => ['u', m 0x302]
  | 0xfc => ['u', m 0x308]
  | 0xfd => ['y', m 0x301] | 0xff => ['y', m 0x308]
  | _ => [c]

/-- `unicodedata.combining(ch) != 0`, restricted to the block the table emits. -/
def isCombining (c : Char) : Bool := 0x300 ≤ c.toNat ∧ c.toNat ≤ 0x36f

/-- Membership in `[a-z0-9]`. -/
def isLowerAlnum (c : Char) : Bool := ('a' ≤ c ∧ c ≤ 'z') ∨ ('0' ≤ c ∧ c ≤ '9')

/-- `re.sub(r"[^a-z0-9]+", " ", ·)`: each maximal run of non-alphanumeric
characters becomes a single space. -/
def collapseNonAlnum : List Char → List Char
  | [] => []
  | c :: rest =>
    if isLowerAlnum c then c :: collapseNonAlnum rest
    else ' ' :: collapseNonAlnum (rest.dropWhile (fun x => ¬ isLowerAlnum x))
termination_by l => l.length
decreasing_by
  · simp only [List.length_cons]; omega
  · simp only [List.length_cons]
    exact Nat.lt_succ_of_le (List.IsSuffix.length_le (List.dropWhile_suffix _))

/-- `_normalize_text`: lowercase, NFKD-decompose, drop combining marks,
collapse non-alphanumeric runs to single spaces, strip.  The source's second
substitution `re.sub(r"\s+", " ", ·)` is a no-op after the first one (runs of
whitespace are runs of non-alphanumerics), so only the strip remains. -/
def normalize_text (s : String) : String :=
  let lowered := s.data.map pyLowerChar
  let decomposed := (lowered.map nfkdChar).flatten
  let filtered := decomposed.filter (fun c => ¬ isCombining c)
  ⟨stripChars (collapseNonAlnum filtered)⟩

/-! ## `urllib.parse` model

`urlparse`/`urlunparse` are modelled after CPython's `Lib/urllib/parse.py`:
tab/CR/LF removal, scheme recognition (initial ASCII letter, then letters,
digits, `+`, `-`, `.`; the scheme is lowercased on extraction), `//`-netloc
up to the first `/`, `?` or `#`, fragment split at the first `#`, query split
at the first `?`, and the `;params` split of the last path segment for the
schemes in `uses_params`.  Not modelled (out of claim scope): bracketed-host
validation and the non-ASCII netloc check, both of which raise in CPython and
are swallowed by `canonicalize_url`'s `try`/`except`. -/

/-- Components of a parsed URL, as CPython's `ParseResult`. -/
structure UrlParts where
  scheme : String
  netloc : String
  path : String
  params : String
  query : String
  fragment : String
deriving Repr, DecidableEq

/-- ASCII letter test (`str.isalpha` for ASCII, as checked by `urlsplit`). -/
def isAsciiAlpha (c : Char) : Bool := ('a' ≤ c ∧ c ≤ 'z') ∨ ('A' ≤ c ∧ c ≤ 'Z')

/-- Membership in CPython's `scheme_chars`. -/
def isSchemeChar (c : Char) : Bool :=
  isAsciiAlpha c ∨ ('0' ≤ c ∧ c ≤ '9') ∨ c = '+' ∨ c = '-' ∨ c = '.'

/-- Split a list at the first occurrence of `sep` (Python `split(sep, 1)`);
`none` when `sep` does not occur. -/
def splitFirst (sep : Char) : List Char → Option (List Char × List Char)
  | [] => none
  | c :: rest =>
    if c = sep then some ([], rest)
    else (splitFirst sep rest).map (fun p => (c :: p.1, p.2))

/-- `_splitnetloc`: the netloc is everything up to the first `/`, `?` or `#`. -/
def splitNetloc (l : List Char) : List Char × List Char :=
  (l.takeWhile (fun c => c ≠ '/' ∧ c ≠ '?' ∧ c ≠ '#'),
   l.dropWhile (fun c => c ≠ '/' ∧ c ≠ '?' ∧ c ≠ '#'))

/-- Scheme extraction of `urlsplit`: succeeds when a `:` occurs at position
`> 0`, the first character is an ASCII letter and everything before the `:`
is a scheme character; the scheme is returned lowercased. -/
def splitScheme (l : List Char) : List Char × List Char :=
  match splitFirst ':' l with
  | none => ([], l)
  | some (pre, post) =>
    match pre with
    | [] => ([], l)
    | c0 :: _ =>
      if isAsciiAlpha c0 ∧ pre.all isSchemeChar then (pre.map pyLowerChar, post)
      else ([], l)

/-- CPython's `uses_params` list. -/
def uses_params : List String :=
  ["", "ftp", "hdl", "prot", "http", "gopher", "news", "nntp", "wais", "https",
   "shttp", "prospero", "rtsp", "rtspu", "sip", "sips", "mms", "sftp", "tel"]

/-- `_splitparams`: split `;params` off the last path segment. -/
def splitParams (l : List Char) : List Char × List Char :=
  let seg := (l.reverse.takeWhile (· ≠ '/')).reverse
  let pre := l.take (l.length - seg.length)
  match splitFirst ';' seg with
  | none => (l, [])
  | some (a, b) => (pre ++ a, b)

/-- `urllib.parse.urlparse` (scope as described above). -/
def urlparseModel (url : String) : UrlParts :=
  let l := url.data.filter (fun c => c ≠ '\t' ∧ c ≠ '\r' ∧ c ≠ '\n')
  let (scheme, rest) := splitScheme l
  let (netloc, rest) :=
    match rest with
    | '/' :: '/' :: tail => splitNetloc tail
    | _ => ([], rest)
  let (rest, fragment) :=
    match splitFirst '#' rest with
    | none => (rest, [])
    | some (a, b) => (a, b)
  let (path, query) :=
    match splitFirst '?' rest with
    | none => (rest, [])
    | some (a, b) => (a, b)
  let (path, params) :=
    if (⟨scheme⟩ : String) ∈ uses_params ∧ ';' ∈ path then splitParams path
    else (path, [])
  ⟨⟨scheme⟩, ⟨netloc⟩, ⟨path⟩, ⟨params⟩, ⟨query⟩, ⟨fragment⟩⟩

/-- `urllib.parse.urlunparse` ∘ `urlunsplit` for already-split components
(`url[:2] == '//'` and `url[:1] != '/'` are read off the character list). -/
def urlunparseModel (p : UrlParts) : String :=
  let url := if p.params ≠ "" then p.path ++ ";" ++ p.params else p.path
  let url :=
    if p.netloc ≠ "" ∨ (url ≠ "" ∧ url.data.take 2 = ['/', '/']) then
      (if url ≠ "" ∧ url.data.take 1 ≠ ['/'] then "//" ++ p.netloc ++ "/" ++ url
       else "//" ++ p.netloc ++ url)
    else url
  let url := if p.scheme ≠ "" then p.scheme ++ ":" ++ url else url
  let url := if p.query ≠ "" then url ++ "?" ++ p.query else url
  if p.fragment ≠ "" then url ++ "#" ++ p.fragment else url

/-- Drop one trailing `/` from a path unless the path is exactly `/`
(the loop body of `canonicalize_url`; `path.endswith("/")` is read off the
character list). -/
def stripTrailingSlash (path : String) : String :=
  if path.data.getLast? = some '/' ∧ path ≠ "/" then ⟨path.data.dropLast⟩
  else path

/-- `canonicalize_url` (job_state.py): strip, parse, require scheme and
netloc (else return the stripped input), drop query/fragment/params,
lowercase scheme and netloc, strip one trailing slash from the path. -/
def canonicalize_url (url : String) : String :=
  if url = "" then ""
  else
    let raw := pyStrip url
    let parsed := urlparseModel raw
    if parsed.scheme = "" ∨ parsed.netloc = "" then raw
    else
      let path := stripTrailingSlash parsed.path
      urlunparseModel ⟨pyLower parsed.scheme, pyLower parsed.netloc, path, "", "", ""⟩

/-! ## SHA-256 (`hashlib.sha256(...).hexdigest()`)

Standard FIPS 180-4 SHA-256 over byte lists, word arithmetic on `Nat`
reduced mod `2^32`. -/

/-- Truncate to a 32-bit word. -/
def w32 (n : Nat) : Nat := n % 4294967296

/-- Right-rotation of a 32-bit word by `n` bits. -/
def rotr (n x : Nat) : Nat := w32 (x / 2 ^ n + x % 2 ^ n * 2 ^ (32 - n))

/-- Bitwise complement of a 32-bit word. -/
def not32 (x : Nat) : Nat := 4294967295 ^^^ x

/-- Floor of the integer cube root, by binary descent (enough bits for the
inputs below, whose cube roots are under `2 ^ 36`). -/
def icbrtGo (n : Nat) : Nat → Nat → Nat
  | 0, acc => acc
  | k + 1, acc =>
    icbrtGo n k (if (acc + 2 ^ k) ^ 3 ≤ n then acc + 2 ^ k else acc)

def icbrt (n : Nat) : Nat := icbrtGo n 36 0

/-- The first `count` primes, by trial division. -/
def firstPrimes (count : Nat) : List Nat :=
  ((List.range 400).filter
    (fun n => 2 ≤ n ∧ (List.range n).all (fun d => d < 2 ∨ n % d ≠ 0))).take count

/-- SHA-256 round constants: the first 32 fractional-part bits of the cube
roots of the first 64 primes. -/
def sha256K : List Nat :=
  (firstPrimes 64).map (fun p => icbrt (p * 2 ^ 96) % 2 ^ 32)

/-- SHA-256 initial hash: the first 32 fractional-part bits of the square
roots of the first 8 primes. -/
def sha256H0 : List Nat :=
  (firstPrimes 8).map (fun p => Nat.sqrt (p * 2 ^ 64) % 2 ^ 32)

/-- Big-endian bytes of `n`, `k` bytes wide. -/
def beBytes (k n : Nat) : List Nat :=
  (List.range k).map (fun i => n / 2 ^ (8 * (k - 1 - i)) % 256)

/-- SHA-256 message padding: `0x80`, zeros to 56 mod 64, 64-bit bit length. -/
def sha256Pad (msg : List Nat) : List Nat :=
  let z := (119 - msg.length % 64) % 64
  msg ++ [0x80] ++ List.replicate z 0 ++ beBytes 8 (8 * msg.length)

/-- Combine 4 bytes into a big-endian 32-bit word. -/
def wordsOfBytes : List Nat → List Nat
  | b0 :: b1 :: b2 :: b3 :: rest =>
    (b0 * 16777216 + b1 * 65536 + b2 * 256 + b3) :: wordsOfBytes rest
  | _ => []

/-- Extend 16 message words to 64 (the message schedule), `k` steps left. -/
def sha256Extend : Nat → List Nat → List Nat
  | 0, ws => ws
  | k + 1, ws =>
    let n := ws.length
    let g := fun i => ws.getD (n - i) 0
    let s0 := rotr 7 (g 15) ^^^ rotr 18 (g 15) ^^^ g 15 / 2 ^ 3
    let s1 := rotr 17 (g 2) ^^^ rotr 19 (g 2) ^^^ g 2 / 2 ^ 10
    sha256Extend k (ws ++ [w32 (g 16 + s0 + g 7 + s1)])

/-- Working state of the compression function. -/
structure Sha256State where
  a : Nat
  b : Nat
  c : Nat
  d : Nat
  e : Nat
  f : Nat
  g : Nat
  h : Nat
deriving Repr, DecidableEq

/-- One compression round with round constant `k` and schedule word `w`. -/
def sha256Round (s : Sha256State) (kw : Nat × Nat) : Sha256State :=
  let S1 := rotr 6 s.e ^^^ rotr 11 s.e ^^^ rotr 25 s.e
  let ch := s.e &&& s.f ^^^ not32 s.e &&& s.g
  let t1 := w32 (s.h + S1 + ch + kw.1 + kw.2)
  let S0 := rotr 2 s.a ^^^ rotr 13 s.a ^^^ rotr 22 s.a
  let mj := s.a &&& s.b ^^^ s.a &&& s.c ^^^ s.b &&& s.c
  let t2 := w32 (S0 + mj)
  ⟨w32 (t1 + t2), s.a, s.b, s.c, w32 (s.d + t1), s.e, s.f, s.g⟩

/-- Compress one 64-byte block into the running hash (8 words). -/
def sha256Block (hs : List Nat) (block : List Nat) : List Nat :=
  let ws := sha256Extend 48 (wordsOfBytes block)
  let init : Sha256State :=
    ⟨hs.getD 0 0, hs.getD 1 0, hs.getD 2 0, hs.getD 3 0,
     hs.getD 4 0, hs.getD 5 0, hs.getD 6 0, hs.getD 7 0⟩
  let s := (sha256K.zip ws).foldl sha256Round init
  [w32 (hs.getD 0 0 + s.a), w32 (hs.getD 1 0 + s.b), w32 (hs.getD 2 0 + s.c),
   w32 (hs.getD 3 0 + s.d), w32 (hs.getD 4 0 + s.e), w32 (hs.getD 5 0 + s.f),
   w32 (hs.getD 6 0 + s.g), w32 (hs.getD 7 0 + s.h)]

/-- Split a byte list into 64-byte blocks. -/
def blocks64 : List Nat → List (List Nat)
  | [] => []
  | c :: rest => (c :: rest).take 64 :: blocks64 ((c :: rest).drop 64)
termination_by l => l.length
decreasing_by simp only [List.length_drop, List.length_cons]; omega

/-- SHA-256 digest (32 bytes) of a byte list. -/
def sha256Bytes (msg : List Nat) : List Nat :=
  let hs := (blocks64 (sha256Pad msg)).foldl sha256Block sha256H0
  (hs.map (beBytes 4)).flatten

/-- Lowercase hex character of a nibble (`0`–`9` then `a`–`f`). -/
def hexChar (n : Nat) : Char :=
  if n < 10 then Char.ofNat (48 + n)
  else if n < 16 then Char.ofNat (87 + n)
  else '0'

/-- `hexdigest()`: the digest as lowercase hex characters. -/
def sha256HexChars (msg : List Nat) : List Char :=
  ((sha256Bytes msg).map (fun b => [hexChar (b / 16), hexChar (b % 16)])).flatten

/-- UTF-8 encoding of one character. -/
def utf8EncodeChar (c : Char) : List Nat :=
  let n := c.toNat
  if n < 0x80 then [n]
  else if n < 0x800 then [0xc0 + n / 64, 0x80 + n % 64]
  else if n < 0x10000 then [0xe0 + n / 4096, 0x80 + n / 64 % 64, 0x80 + n % 64]
  else [0xf0 + n / 262144, 0x80 + n / 4096 % 64, 0x80 + n / 64 % 64, 0x80 + n % 64]

/-- `str.encode("utf-8")`. -/
def utf8Bytes (s : String) : List Nat := (s.data.map utf8EncodeChar).flatten

/-! ## Timestamps (`parse_ts`, job_state.py)

`datetime.fromisoformat` is modelled for the full UTC timestamps the program
itself generates (`now_iso`): `YYYY-MM-DDTHH:MM:SS` followed by `+00:00`
(the source first replaces every `Z` with `+00:00`).  The result is epoch
seconds as `Int`.  Other `fromisoformat`-accepted shapes (date-only, naive,
fractional seconds, non-UTC offsets) are outside the model's scope — the
program never writes them, and a naive value would make the subtraction in
`should_send_reminder` raise rather than return. -/

/-- Decimal digit value. -/
def digitVal? (c : Char) : Option Nat :=
  if '0' ≤ c ∧ c ≤ '9' then some (c.toNat - 48) else none

/-- Gregorian leap-year test. -/
def isLeap (y : Nat) : Bool := y % 4 = 0 ∧ (y % 100 ≠ 0 ∨ y % 400 = 0)

/-- Days in a month. -/
def daysInMonth (y m : Nat) : Nat :=
  if m = 2 then (if isLeap y then 29 else 28)
  else if m ∈ [4, 6, 9, 11] then 30 else 31

/-- Days from 1970-01-01 to `y-m-d` (proleptic Gregorian). -/
def daysFromCivil (y m d : Int) : Int :=
  let y := y - (if m ≤ 2 then 1 else 0)
  let era := Int.fdiv y 400
  let yoe := y - era * 400
  let doy := Int.fdiv (153 * (m + (if 2 < m then -3 else 9)) + 2) 5 + d - 1
  let doe := yoe * 365 + Int.fdiv yoe 4 - Int.fdiv yoe 100 + doy
  era * 146097 + doe - 719468

/-- `value.replace("Z", "+00:00")` on characters. -/
def replaceZ (l : List Char) : List Char :=
  (l.map (fun c => if c = 'Z' then "+00:00".data else [c])).flatten

/-- Parse `YYYY-MM-DDTHH:MM:SS+00:00` to epoch seconds, validating ranges as
`fromisoformat` does. -/
def parseIsoChars (l : List Char) : Option Int :=
  match l with
  | [y1, y2, y3, y4, s1, mo1, mo2, s2, d1, d2, t, h1, h2, c1, mi1, mi2, c2,
     se1, se2, p1, z1, z2, c3, z3, z4] =>
    match digitVal? y1, digitVal? y2, digitVal? y3, digitVal? y4,
        digitVal? mo1, digitVal? mo2, digitVal? d1, digitVal? d2,
        digitVal? h1, digitVal? h2, digitVal? mi1, digitVal? mi2,
        digitVal? se1, digitVal? se2 with
    | some a, some b, some c, some d, some e, some f, some g, some h,
      some i, some j, some k, some m, some n, some o =>
      let year := a * 1000 + b * 100 + c * 10 + d
      let month := e * 10 + f
      let day := g * 10 + h
      let hour := i * 10 + j
      let minute := k * 10 + m
      let second := n * 10 + o
      if s1 = '-' ∧ s2 = '-' ∧ t = 'T' ∧ c1 = ':' ∧ c2 = ':' ∧ p1 = '+' ∧
          z1 = '0' ∧ z2 = '0' ∧ c3 = ':' ∧ z3 = '0' ∧ z4 = '0' ∧
          1 ≤ year ∧ 1 ≤ month ∧ month ≤ 12 ∧ 1 ≤ day ∧
          day ≤ daysInMonth year month ∧ hour ≤ 23 ∧ minute ≤ 59 ∧ second ≤ 59
      then
        some (daysFromCivil year month day * 86400 +
          (hour : Int) * 3600 + minute * 60 + second)
      else none
    | _, _, _, _, _, _, _, _, _, _, _, _, _, _ => none
  | _ => none

/-- `parse_ts` (job_state.py): `None`/empty → `None`; otherwise replace `Z`
and parse, `None` on failure. -/
def parse_ts : Option String → Option Int
  | none => none
  | some s => if s = "" then none else parseIsoChars (replaceZ s.data)

/-! ## Statuses and records (job_state.py) -/

def STATUS_NEW : String := "new"

def STATUS_NOTIFIED : String := "notified"

def STATUS_APPLIED : String := "applied"

def STATUS_IGNORED : String := "ignored"

def STATUS_CLOSED : String := "closed"

def OPEN_STATUSES : List String := [STATUS_NEW, STATUS_NOTIFIED]

def TERMINAL_STATUSES : List String := [STATUS_APPLIED, STATUS_IGNORED, STATUS_CLOSED]

/-- A state-store record (values of `generated/job_state.json`).  String
fields conflate a missing key with `""`; `last_sent_at` keeps `None` apart
because the source tests it for truthiness against genuinely-set values.
`match` is a Lean keyword, hence `match_`. -/
@[ext]
structure StateRecord where
  job_uid : String := ""
  source : String := ""
  canonical_url : String := ""
  link : String := ""
  title : String := ""
  company : String := ""
  location : String := ""
  first_seen_at : String := ""
  last_seen_at : String := ""
  last_sent_at : Option String := none
  status : String := ""
  score : String := ""
  match_ : String := ""
  date : String := ""
  commute_min : Option Int := none
  missing_runs : Int := 0
deriving Repr, DecidableEq

/-- A scraped posting row as consumed by `build_job_uid` and
`_merge_payload`: every key either function reads.  `""`/`none` stands for a
missing key (the source only ever tests truthiness of these fields). -/
structure PayloadRow where
  source : String := ""
  portal : String := ""
  origin : String := ""
  site : String := ""
  link : String := ""
  url : String := ""
  apply_url : String := ""
  applyLink : String := ""
  external_id : String := ""
  job_id : String := ""
  id : String := ""
  title : String := ""
  job_title : String := ""
  position : String := ""
  company : String := ""
  employer : String := ""
  location : String := ""
  city : String := ""
  score : String := ""
  match_ : String := ""
  date : String := ""
  commute_min : Option Int := none
deriving Repr, DecidableEq

/-! ## `build_job_uid` (job_state.py) -/

/-- `data.get("source") or data.get("portal") or data.get("origin") or
data.get("site") or ""`. -/
def rowSourceChain (r : PayloadRow) : String :=
  pyOr r.source (pyOr r.portal (pyOr r.origin r.site))

/-- `data.get("link") or data.get("url") or data.get("apply_url") or
data.get("applyLink") or ""`. -/
def rowLinkChain (r : PayloadRow) : String :=
  pyOr r.link (pyOr r.url (pyOr r.apply_url r.applyLink))

/-- `data.get("external_id") or data.get("job_id") or data.get("id") or ""`. -/
def rowIdChain (r : PayloadRow) : String :=
  pyOr r.external_id (pyOr r.job_id r.id)

/-- The resolved `source` of `build_job_uid`: stripped chain, defaulting to
the literal `"unknown"` when empty. -/
def resolvedSource (r : PayloadRow) : String :=
  let s := pyStrip (rowSourceChain r)
  if s = "" then "unknown" else s

/-- The identity-basis string of `build_job_uid` (its local `base`). -/
def buildJobBase (data : PayloadRow) : String :=
  let source := resolvedSource data
  let link := pyStrip (rowLinkChain data)
  let canonical_url := canonicalize_url link
  if canonical_url ≠ "" then "url|" ++ source ++ "|" ++ canonical_url
  else
    let external_id := pyStrip (rowIdChain data)
    if external_id ≠ "" then "id|" ++ source ++ "|" ++ external_id
    else
      let title := normalize_text (pyOr data.title (pyOr data.job_title data.position))
      let company := normalize_text (pyOr data.company data.employer)
      let location := normalize_text (pyOr data.location data.city)
      let link_norm := normalize_text link
      "fallback|" ++ source ++ "|" ++ title ++ "|" ++ company ++ "|" ++
        location ++ "|" ++ link_norm

/-- `build_job_uid`: `(sha256(base).hexdigest()[:16], canonical_url)`. -/
def build_job_uid (data : PayloadRow) : String × String :=
  let canonical_url := canonicalize_url (pyStrip (rowLinkChain data))
  (⟨(sha256HexChars (utf8Bytes (buildJobBase data))).take 16⟩, canonical_url)

/-! ## The state store as an association list -/

/-- The state store: insertion-ordered dict from `job_uid` to record. -/
def JobState := List (String × StateRecord)
deriving Repr, DecidableEq

/-- Dict lookup (`state.get(uid)`). -/
def stateGet : JobState → String → Option StateRecord
  | [], _ => none
  | (k, r) :: rest, uid => if k = uid then some r else stateGet rest uid

/-- Dict assignment (`state[uid] = record`): update the first occurrence in
place, append when absent — insertion-ordered dict semantics. -/
def stateSet : JobState → String → StateRecord → JobState
  | [], uid, r => [(uid, r)]
  | (k, v) :: rest, uid, r =>
    if k = uid then (k, r) :: rest else (k, v) :: stateSet rest uid r

/-! ## `_merge_payload` (mail_list.py) -/

/-- The record created for a fresh UID (first branch of the payload loop). -/
def newRecordOfRow (stamp uid canonical_url : String) (row : PayloadRow) :
    StateRecord :=
  let link := rowLinkChain row
  { job_uid := uid
    source := row.source
    canonical_url := pyOr canonical_url (pyOr (canonicalize_url link) link)
    link := link
    title := row.title
    company := row.company
    location := row.location
    first_seen_at := stamp
    last_seen_at := stamp
    last_sent_at := none
    status := STATUS_NEW
    score := row.score
    match_ := row.match_
    date := row.date
    commute_min := row.commute_min
    missing_runs := 0 }

/-- The status recomputation of the existing-record branch:
`status = record.get("status") or NEW`, reopen `closed` to `notified`/`new`
depending on `last_sent_at`, and only write back when not `applied`/`ignored`. -/
def statusStep (last_sent_at : Option String) (status old : String) : String :=
  let s := pyOr status STATUS_NEW
  let s :=
    if s = STATUS_CLOSED then
      (if optTruthy last_sent_at then STATUS_NOTIFIED else STATUS_NEW)
    else s
  if s ≠ STATUS_APPLIED ∧ s ≠ STATUS_IGNORED then s else old

/-- The existing-record branch of the payload loop: refresh metadata (each
field only overwritten by a truthy new value), reset `last_seen_at`/
`missing_runs`, recompute `status`. -/
def applyRowToRecord (stamp : String) (row : PayloadRow) (record : StateRecord) :
    StateRecord :=
  let link := rowLinkChain row
  let canonical_url := (build_job_uid row).2
  { record with
    source := pyOr row.source record.source
    canonical_url :=
      pyOr canonical_url
        (pyOr record.canonical_url (pyOr (canonicalize_url link) link))
    link := pyOr link record.link
    title := pyOr row.title record.title
    company := pyOr row.company record.company
    location := pyOr row.location record.location
    score := if row.score ≠ "" then row.score else record.score
    match_ := if row.match_ ≠ "" then row.match_ else record.match_
    date := if row.date ≠ "" then row.date else record.date
    commute_min :=
      if row.commute_min ≠ none then row.commute_min else record.commute_min
    last_seen_at := stamp
    missing_runs := 0
    status := statusStep record.last_sent_at record.status record.status }

/-- One iteration of the payload loop. -/
def mergeRow (stamp : String) (st : JobState) (row : PayloadRow) : JobState :=
  let uid := (build_job_uid row).1
  let canonical_url := (build_job_uid row).2
  match stateGet st uid with
  | none => stateSet st uid (newRecordOfRow stamp uid canonical_url row)
  | some record => stateSet st uid (applyRowToRecord stamp row record)

/-- The whole payload loop. -/
def mergeRows (stamp : String) (payload : List PayloadRow) (st : JobState) :
    JobState :=
  payload.foldl (mergeRow stamp) st

/-- `seen_this_run`: the UIDs of the fresh batch (the source accumulates
this set inside the payload loop; membership is all that is ever used). -/
def seenThisRun (payload : List PayloadRow) : List String :=
  payload.map (fun row => (build_job_uid row).1)

/-- `days_missing`: `(now_dt - last_seen).days if last_seen else 0`. -/
def daysMissing (now_dt : Int) (last_seen_at : String) : Int :=
  match parse_ts (some last_seen_at) with
  | some t => Int.fdiv (now_dt - t) 86400
  | none => 0

/-- The absence step applied to one not-seen, non-terminal record:
increment `missing_runs`, close when a positive threshold is crossed. -/
def closeAbsentRecord (now_dt cmr cnsd : Int) (r : StateRecord) : StateRecord :=
  let mr := r.missing_runs + 1
  if (0 < cmr ∧ cmr ≤ mr) ∨ (0 < cnsd ∧ cnsd ≤ daysMissing now_dt r.last_seen_at)
  then { r with missing_runs := mr, status := STATUS_CLOSED }
  else { r with missing_runs := mr }

/-- The absence loop of `_merge_payload`: every record whose UID is not in
`seen` and whose status is not `applied`/`ignored`/`closed` goes through
`closeAbsentRecord`. -/
def mergeAbsent (seen : List String) (now_dt cmr cnsd : Int) (st : JobState) :
    JobState :=
  st.map (fun e =>
    if e.1 ∈ seen then e
    else if e.2.status = STATUS_APPLIED ∨ e.2.status = STATUS_IGNORED ∨
        e.2.status = STATUS_CLOSED then e
    else (e.1, closeAbsentRecord now_dt cmr cnsd e.2))

/-- `_merge_payload`: payload loop, then absence loop.  The source returns
`(seen_this_run, newly_added, marked_closed_count)` and mutates `state` in
place; the model returns the state, with `seen_this_run = seenThisRun payload`
and the two counters (statistics only, used by no claim) omitted. -/
def _merge_payload (payload : List PayloadRow) (st : JobState) (stamp : String)
    (now_dt cmr cnsd : Int) : JobState :=
  mergeAbsent (seenThisRun payload) now_dt cmr cnsd (mergeRows stamp payload st)

/-! ## `close_aggregator_records` and `_maybe_send_mail` (mail_list.py) -/

def AGGREGATOR_SOURCES : List String := ["careerjet", "jobrapido", "jooble"]

/-- `close_aggregator_records`: force-close every record of an aggregator
source whose status is not in `terminal_statuses`; returns the new state and
the number of records closed. -/
def close_aggregator_records (st : JobState) (terminal_statuses : List String)
    (status_closed : String) : JobState × Nat :=
  (st.map (fun e =>
      if pyLower (pyStrip e.2.source) ∈ AGGREGATOR_SOURCES ∧
          e.2.status ∉ terminal_statuses
      then (e.1, { e.2 with status := status_closed }) else e),
   (st.filter (fun e =>
      pyLower (pyStrip e.2.source) ∈ AGGREGATOR_SOURCES ∧
        e.2.status ∉ terminal_statuses)).length)

/-- The post-send loop of `_maybe_send_mail`: every dispatched record is set
to `notified` with `last_sent_at = stamp`.  Dispatched records are state
records aliased through `send_jobs`/`send_reminders`; the model addresses
them by UID. -/
def markNotified (stamp : String) (uids : List String) (st : JobState) :
    JobState :=
  st.map (fun e =>
    if e.1 ∈ uids then
      (e.1, { e.2 with status := STATUS_NOTIFIED, last_sent_at := some stamp })
    else e)

/-- `_maybe_send_mail`: nothing to send, dry run, and sender failure all
leave the state untouched and report `mail_sent = false`; a confirmed send
marks every dispatched record.  `dry_run` models `is_dry_run(args)` and
`sender_ok` the return of `email_automation.send_job_alert`. -/
def _maybe_send_mail (dry_run sender_ok : Bool) (send_jobs send_reminders : List String)
    (stamp : String) (st : JobState) : JobState × Bool :=
  if send_jobs = [] ∧ send_reminders = [] then (st, false)
  else if dry_run then (st, false)
  else if sender_ok = false then (st, false)
  else (markNotified stamp (send_jobs ++ send_reminders) st, true)

/-! ## `should_send_reminder` (job_state.py) -/

/-- `should_send_reminder`: daily mode, missing/empty/unparseable
`last_sent_at` and non-positive `reminder_days` are all "due"; otherwise due
when the whole elapsed days reach `reminder_days`. -/
def should_send_reminder (last_sent_at : Option String) (now_dt reminder_days : Int)
    (daily_reminders : Bool) : Bool :=
  if daily_reminders then true
  else if ¬ optTruthy last_sent_at then true
  else if reminder_days ≤ 0 then true
  else
    match parse_ts last_sent_at with
    | none => true
    | some t => decide (reminder_days ≤ Int.fdiv (now_dt - t) 86400)

/-! ## Basic lemmas about the string primitives -/

theorem pyOr_self (a : String) : pyOr a a = a := by
  simp [pyOr]

theorem pyOr_eq_empty {a b : String} : pyOr a b = "" ↔ a = "" ∧ b = "" := by
  unfold pyOr
  by_cases h : a = "" <;> simp [h]

theorem pyOr_empty_left (b : String) : pyOr "" b = b := rfl

theorem pyOr_empty_right (a : String) : pyOr a "" = a := by
  unfold pyOr
  split <;> simp_all

theorem pyOr_of_ne_empty {a : String} (b : String) (h : a ≠ "") : pyOr a b = a := by
  unfold pyOr
  rw [if_neg h]

theorem pyOr_absorb (a b : String) : pyOr a (pyOr (pyOr a b) b) = pyOr a b := by
  unfold pyOr
  by_cases h : a = "" <;> by_cases h2 : b = "" <;> simp [h, h2]

theorem string_mk_eq_empty {l : List Char} : (⟨l⟩ : String) = "" ↔ l = [] := by
  constructor
  · intro h
    exact congrArg String.data h
  · rintro rfl
    rfl

theorem dropWhile_dropWhile (p : Char → Bool) (l : List Char) :
    (l.dropWhile p).dropWhile p = l.dropWhile p := by
  induction l with
  | nil => rfl
  | cons c t ih =>
    by_cases h : p c
    · simpa [List.dropWhile_cons, h] using ih
    · simp [List.dropWhile_cons, h]

/-- A `dropWhile` result that retains the final element of `u ++ [a]`. -/
theorem dropWhile_append_singleton (p : Char → Bool) (a : Char) (ha : ¬ p a) :
    ∀ u : List Char, (u ++ [a]).dropWhile p = [] ∨
      ∃ v, (u ++ [a]).dropWhile p = v ++ [a] := by
  intro u
  induction u with
  | nil => exact Or.inr ⟨[], by simp [List.dropWhile_cons, ha]⟩
  | cons c t ih =>
    by_cases h : p c
    · simpa [List.dropWhile_cons, h] using ih
    · exact Or.inr ⟨c :: t, by simp [List.dropWhile_cons, h]⟩

theorem not_isPySpace_head {l : List Char} {a : Char} {t : List Char}
    (h : l.dropWhile isPySpace = a :: t) : ¬ isPySpace a := by
  induction l with
  | nil => simp at h
  | cons c u ih =>
    by_cases hc : isPySpace c
    · exact ih (by simpa [List.dropWhile_cons, hc] using h)
    · rw [List.dropWhile_cons, if_neg (by simpa using hc)] at h
      cases h
      exact hc

theorem stripChars_idem (l : List Char) :
    stripChars (stripChars l) = stripChars l := by
  unfold stripChars
  rcases hcase : l.dropWhile isPySpace with _ | ⟨a, t⟩
  · simp
  · have ha : ¬ isPySpace a := not_isPySpace_head hcase
    rw [List.reverse_cons]
    rcases dropWhile_append_singleton isPySpace a ha t.reverse with h0 | ⟨v, hv⟩
    · rw [h0]
      simp
    · rw [hv]
      have h1 : ((v ++ [a]).reverse).dropWhile isPySpace = (v ++ [a]).reverse := by
        rw [List.reverse_append]
        simp only [List.reverse_singleton, List.singleton_append,
          List.dropWhile_cons]
        rw [if_neg (by simpa using ha)]
      have h2 : (v ++ [a]).dropWhile isPySpace = v ++ [a] := by
        cases v with
        | nil => simp [List.dropWhile_cons, ha]
        | cons c v' =>
          have hc : ¬ isPySpace c :=
            not_isPySpace_head (l := t.reverse ++ [a]) (by simpa using hv)
          simp [List.dropWhile_cons, hc]
      rw [h1, List.reverse_reverse, h2]

theorem pyStrip_idem (s : String) : pyStrip (pyStrip s) = pyStrip s := by
  unfold pyStrip
  rw [show (⟨stripChars s.data⟩ : String).data = stripChars s.data from rfl,
    stripChars_idem]

theorem pyStrip_eq_empty_data {s : String} :
    pyStrip s = "" ↔ stripChars s.data = [] := string_mk_eq_empty

theorem pyLower_eq_empty {s : String} : pyLower s = "" ↔ s = "" := by
  unfold pyLower
  rw [string_mk_eq_empty, List.map_eq_nil_iff]
  constructor
  · intro h
    cases s
    simp_all
  · rintro rfl
    rfl

theorem append_ne_empty_of_left {a b : String} (h : a ≠ "") : a ++ b ≠ "" := by
  intro hab
  apply h
  have := congrArg String.data hab
  rw [String.data_append] at this
  rcases List.append_eq_nil.mp this with ⟨h1, _⟩
  cases s : a
  cases a
  simp_all

/-! ## Association-list (dict) lemmas -/

theorem stateGet_stateSet_self (st : JobState) (u : String) (r : StateRecord) :
    stateGet (stateSet st u r) u = some r := by
  induction st with
  | nil => simp [stateSet, stateGet]
  | cons e t ih =>
    by_cases h : e.1 = u
    · simp [stateSet, stateGet, h]
    · simp [stateSet, stateGet, h, ih]

theorem stateGet_stateSet_ne (st : JobState) {u u' : String} (r : StateRecord)
    (h : u ≠ u') : stateGet (stateSet st u r) u' = stateGet st u' := by
  induction st with
  | nil => simp [stateSet, stateGet, h]
  | cons e t ih =>
    by_cases he : e.1 = u
    · subst he
      simp [stateSet, stateGet, h]
    · by_cases he' : e.1 = u'
      · simp [stateSet, stateGet, he, he', Ne.symm h]
      · simp [stateSet, stateGet, he, he', ih]

/-! ## The payload loop as a per-record fold -/

/-- Folding the existing-record branch over a list of rows. -/
def recFold (stamp : String) (rows : List PayloadRow) (rec : StateRecord) :
    StateRecord :=
  rows.foldl (fun r row => applyRowToRecord stamp row r) rec

/-- A record key untouched by one loop iteration. -/
theorem stateGet_mergeRow_ne {row : PayloadRow} {uid : String}
    (stamp : String) (st : JobState) (h : (build_job_uid row).1 ≠ uid) :
    stateGet (mergeRow stamp st row) uid = stateGet st uid := by
  rcases hm : stateGet st (build_job_uid row).1 with _ | rec <;>
    simp [mergeRow, hm, stateGet_stateSet_ne _ _ h]

/-- The payload loop, seen from one existing record: it receives exactly the
rows whose UID matches, in order. -/
theorem stateGet_mergeRows_of_some (stamp : String) :
    ∀ (payload : List PayloadRow) (st : JobState) (uid : String) (r : StateRecord),
      stateGet st uid = some r →
      stateGet (mergeRows stamp payload st) uid =
        some (recFold stamp
          (payload.filter (fun row => (build_job_uid row).1 = uid)) r)
  | [], _, _, _, h => by simpa [mergeRows, recFold] using h
  | row :: tail, st, uid, r, h => by
    show stateGet (mergeRows stamp tail (mergeRow stamp st row)) uid = _
    by_cases huid : (build_job_uid row).1 = uid
    · have h1 : stateGet st (build_job_uid row).1 = some r := by rw [huid]; exact h
      have h2 : mergeRow stamp st row =
          stateSet st (build_job_uid row).1 (applyRowToRecord stamp row r) := by
        simp [mergeRow, h1]
      rw [h2, huid]
      rw [stateGet_mergeRows_of_some stamp tail _ uid _
        (stateGet_stateSet_self st uid _)]
      simp [List.filter_cons, huid, recFold]
    · rw [stateGet_mergeRows_of_some stamp tail _ uid r
          ((stateGet_mergeRow_ne stamp st huid).trans h)]
      simp [List.filter_cons, huid]

/-- The payload loop, seen from a fresh UID: the first matching row creates
the record, later matching rows refresh it. -/
theorem stateGet_mergeRows_of_none (stamp : String) :
    ∀ (payload : List PayloadRow) (st : JobState) (uid : String),
      stateGet st uid = none →
      stateGet (mergeRows stamp payload st) uid =
        match payload.filter (fun row => (build_job_uid row).1 = uid) with
        | [] => none
        | row :: rest =>
          some (recFold stamp rest
            (newRecordOfRow stamp uid (build_job_uid row).2 row))
  | [], _, _, h => by simpa [mergeRows] using h
  | row :: tail, st, uid, h => by
    show stateGet (mergeRows stamp tail (mergeRow stamp st row)) uid = _
    by_cases huid : (build_job_uid row).1 = uid
    · have h1 : stateGet st (build_job_uid row).1 = none := by rw [huid]; exact h
      have h2 : mergeRow stamp st row =
          stateSet st (build_job_uid row).1
            (newRecordOfRow stamp (build_job_uid row).1 (build_job_uid row).2 row) := by
        simp [mergeRow, h1]
      rw [h2, huid]
      rw [stateGet_mergeRows_of_some stamp tail _ uid _
        (stateGet_stateSet_self st uid _)]
      simp [List.filter_cons, huid]
    · rw [stateGet_mergeRows_of_none stamp tail _ uid
        ((stateGet_mergeRow_ne stamp st huid).trans h)]
      simp [List.filter_cons, huid]

/-- UIDs seen this run are exactly those with a matching payload row. -/
theorem mem_seenThisRun {payload : List PayloadRow} {uid : String} :
    uid ∈ seenThisRun payload ↔
      payload.filter (fun row => (build_job_uid row).1 = uid) ≠ [] := by
  simp [seenThisRun, List.mem_map, List.filter_eq_nil_iff]

/-! ## Stability of the per-record fold -/

/-- Folds whose update either keeps the accumulator or ignores it are stable
under repetition. -/
theorem foldl_update_stable {α : Type} (f : α → PayloadRow → α)
    (hf : ∀ old row, f old row = old ∨ ∀ old', f old' row = f old row) :
    ∀ (l : List PayloadRow) (i : α), l.foldl f (l.foldl f i) = l.foldl f i
  | [], _ => rfl
  | x :: t, i => by
    simp only [List.foldl_cons]
    rcases hf (t.foldl f (f i x)) x with hk | hc
    · rw [hk]
      exact foldl_update_stable f hf t (f i x)
    · rw [← hc i]

/-- The update of the `canonical_url` field in the existing-record branch. -/
def canonUpdate (old : String) (row : PayloadRow) : String :=
  pyOr (build_job_uid row).2
    (pyOr old (pyOr (canonicalize_url (rowLinkChain row)) (rowLinkChain row)))

/-- Folding `canonUpdate` over a row list. -/
def canonFold (l : List PayloadRow) (i : String) : String := l.foldl canonUpdate i

theorem canonFold_eq_empty :
    ∀ (l : List PayloadRow) (i : String), canonFold l i = "" →
      i = "" ∧ ∀ j, canonFold l j = j
  | [], _, h => ⟨h, fun _ => rfl⟩
  | x :: t, i, h => by
    obtain ⟨h1, h2⟩ := canonFold_eq_empty t (canonUpdate i x) h
    obtain ⟨hy, h3⟩ := pyOr_eq_empty.mp h1
    obtain ⟨hi, hw⟩ := pyOr_eq_empty.mp h3
    refine ⟨hi, fun j => ?_⟩
    show canonFold t (canonUpdate j x) = j
    have : canonUpdate j x = j := by
      unfold canonUpdate
      rw [hy, hw, pyOr_empty_left, pyOr_empty_right]
    rw [this, h2]

theorem canonFold_stable :
    ∀ (l : List PayloadRow) (i : String), canonFold l (canonFold l i) = canonFold l i
  | [], _ => rfl
  | x :: t, i => by
    show canonFold t (canonUpdate (canonFold t (canonUpdate i x)) x) =
      canonFold t (canonUpdate i x)
    by_cases hy : (build_job_uid x).2 = ""
    · by_cases hr : canonFold t (canonUpdate i x) = ""
      · obtain ⟨h1, h2⟩ := canonFold_eq_empty t (canonUpdate i x) hr
        obtain ⟨-, h3⟩ := pyOr_eq_empty.mp h1
        obtain ⟨-, hw⟩ := pyOr_eq_empty.mp h3
        have : canonUpdate (canonFold t (canonUpdate i x)) x = "" := by
          rw [hr]
          unfold canonUpdate
          rw [hy, hw, pyOr_empty_left, pyOr_empty_left]
        rw [this, h2, hr]
      · have : canonUpdate (canonFold t (canonUpdate i x)) x =
            canonFold t (canonUpdate i x) := by
          set R := canonFold t (canonUpdate i x)
          unfold canonUpdate
          rw [hy, pyOr_empty_left, pyOr_of_ne_empty _ hr]
        rw [this]
        exact canonFold_stable t (canonUpdate i x)
    · have h1 : canonUpdate (canonFold t (canonUpdate i x)) x = canonUpdate i x := by
        set R := canonFold t (canonUpdate i x)
        unfold canonUpdate
        rw [pyOr_of_ne_empty _ hy, pyOr_of_ne_empty _ hy]
      rw [h1]

/-! ## Lemmas about the status recomputation -/

theorem statusStep_self {s : String} (ls : Option String) (h1 : s ≠ "")
    (h2 : s ≠ STATUS_CLOSED) : statusStep ls s s = s := by
  simp only [statusStep, pyOr]
  rw [if_neg h1, if_neg h2]
  exact ite_self s

theorem statusStep_ne_closed (ls : Option String) (s : String) :
    statusStep ls s s ≠ STATUS_CLOSED := by
  simp only [statusStep, pyOr]
  split_ifs <;>
    simp_all [STATUS_NEW, STATUS_NOTIFIED, STATUS_APPLIED, STATUS_IGNORED,
      STATUS_CLOSED]

theorem statusStep_ne_empty (ls : Option String) (s : String) :
    statusStep ls s s ≠ "" := by
  simp only [statusStep, pyOr]
  split_ifs <;>
    simp_all [STATUS_NEW, STATUS_NOTIFIED, STATUS_APPLIED, STATUS_IGNORED,
      STATUS_CLOSED]

theorem statusStep_idem (ls : Option String) (s : String) :
    statusStep ls (statusStep ls s s) (statusStep ls s s) = statusStep ls s s :=
  statusStep_self ls (statusStep_ne_empty ls s) (statusStep_ne_closed ls s)

theorem statusStep_closed (ls : Option String) :
    statusStep ls STATUS_CLOSED STATUS_CLOSED =
      if optTruthy ls then STATUS_NOTIFIED else STATUS_NEW := by
  simp only [statusStep, pyOr]
  split_ifs <;>
    simp_all [STATUS_NEW, STATUS_NOTIFIED, STATUS_APPLIED, STATUS_IGNORED,
      STATUS_CLOSED]

/-! ## Projections of the per-record fold -/

theorem recFold_job_uid (stamp : String) :
    ∀ (rows : List PayloadRow) (rec : StateRecord),
      (recFold stamp rows rec).job_uid = rec.job_uid
  | [], _ => rfl
  | x :: t, rec => recFold_job_uid stamp t (applyRowToRecord stamp x rec)

theorem recFold_first_seen (stamp : String) :
    ∀ (rows : List PayloadRow) (rec : StateRecord),
      (recFold stamp rows rec).first_seen_at = rec.first_seen_at
  | [], _ => rfl
  | x :: t, rec => recFold_first_seen stamp t (applyRowToRecord stamp x rec)

theorem recFold_last_sent (stamp : String) :
    ∀ (rows : List PayloadRow) (rec : StateRecord),
      (recFold stamp rows rec).last_sent_at = rec.last_sent_at
  | [], _ => rfl
  | x :: t, rec => recFold_last_sent stamp t (applyRowToRecord stamp x rec)

theorem recFold_source (stamp : String) :
    ∀ (rows : List PayloadRow) (rec : StateRecord),
      (recFold stamp rows rec).source =
        rows.foldl (fun old row => pyOr row.source old) rec.source
  | [], _ => rfl
  | x :: t, rec => recFold_source stamp t (applyRowToRecord stamp x rec)

theorem recFold_link (stamp : String) :
    ∀ (rows : List PayloadRow) (rec : StateRecord),
      (recFold stamp rows rec).link =
        rows.foldl (fun old row => pyOr (rowLinkChain row) old) rec.link
  | [], _ => rfl
  | x :: t, rec => recFold_link stamp t (applyRowToRecord stamp x rec)

theorem recFold_title (stamp : String) :
    ∀ (rows : List PayloadRow) (rec : StateRecord),
      (recFold stamp rows rec).title =
        rows.foldl (fun old row => pyOr row.title old) rec.title
  | [], _ => rfl
  | x :: t, rec => recFold_title stamp t (applyRowToRecord stamp x rec)

theorem recFold_company (stamp : String) :
    ∀ (rows : List PayloadRow) (rec : StateRecord),
      (recFold stamp rows rec).company =
        rows.foldl (fun old row => pyOr row.company old) rec.company
  | [], _ => rfl
  | x :: t, rec => recFold_company stamp t (applyRowToRecord stamp x rec)

theorem recFold_location (stamp : String) :
    ∀ (rows : List PayloadRow) (rec : StateRecord),
      (recFold stamp rows rec).location =
        rows.foldl (fun old row => pyOr row.location old) rec.location
  | [], _ => rfl
  | x :: t, rec => recFold_location stamp t (applyRowToRecord stamp x rec)

theorem recFold_canonical (stamp : String) :
    ∀ (rows : List PayloadRow) (rec : StateRecord),
      (recFold stamp rows rec).canonical_url = canonFold rows rec.canonical_url
  | [], _ => rfl
  | x :: t, rec => recFold_canonical stamp t (applyRowToRecord stamp x rec)

theorem recFold_score (stamp : String) :
    ∀ (rows : List PayloadRow) (rec : StateRecord),
      (recFold stamp rows rec).score =
        rows.foldl (fun old row => if row.score ≠ "" then row.score else old) rec.score
  | [], _ => rfl
  | x :: t, rec => recFold_score stamp t (applyRowToRecord stamp x rec)

theorem recFold_match (stamp : String) :
    ∀ (rows : List PayloadRow) (rec : StateRecord),
      (recFold stamp rows rec).match_ =
        rows.foldl (fun old row => if row.match_ ≠ "" then row.match_ else old) rec.match_
  | [], _ => rfl
  | x :: t, rec => recFold_match stamp t (applyRowToRecord stamp x rec)

theorem recFold_date (stamp : String) :
    ∀ (rows : List PayloadRow) (rec : StateRecord),
      (recFold stamp rows rec).date =
        rows.foldl (fun old row => if row.date ≠ "" then row.date else old) rec.date
  | [], _ => rfl
  | x :: t, rec => recFold_date stamp t (applyRowToRecord stamp x rec)

theorem recFold_commute (stamp : String) :
    ∀ (rows : List PayloadRow) (rec : StateRecord),
      (recFold stamp rows rec).commute_min =
        rows.foldl
          (fun old row => if row.commute_min ≠ none then row.commute_min else old)
          rec.commute_min
  | [], _ => rfl
  | x :: t, rec => recFold_commute stamp t (applyRowToRecord stamp x rec)

theorem recFold_last_seen (stamp : String) :
    ∀ (rows : List PayloadRow) (rec : StateRecord),
      (recFold stamp rows rec).last_seen_at =
        if rows = [] then rec.last_seen_at else stamp
  | [], _ => rfl
  | x :: t, rec => by
    show (recFold stamp t (applyRowToRecord stamp x rec)).last_seen_at = stamp
    rw [recFold_last_seen stamp t]
    cases t <;> simp [applyRowToRecord]

theorem recFold_missing (stamp : String) :
    ∀ (rows : List PayloadRow) (rec : StateRecord),
      (recFold stamp rows rec).missing_runs =
        if rows = [] then rec.missing_runs else 0
  | [], _ => rfl
  | x :: t, rec => by
    show (recFold stamp t (applyRowToRecord stamp x rec)).missing_runs = 0
    rw [recFold_missing stamp t]
    cases t <;> simp [applyRowToRecord]

theorem recFold_status (stamp : String) :
    ∀ (rows : List PayloadRow) (rec : StateRecord),
      (recFold stamp rows rec).status =
        if rows = [] then rec.status
        else statusStep rec.last_sent_at rec.status rec.status
  | [], _ => rfl
  | x :: t, rec => by
    show (recFold stamp t (applyRowToRecord stamp x rec)).status = _
    rw [recFold_status stamp t]
    cases t with
    | nil => simp [applyRowToRecord]
    | cons y t' =>
      simp only [applyRowToRecord]
      simpa using statusStep_idem rec.last_sent_at rec.status

/-! ## Stability of the per-record fold under repetition -/

theorem pyOr_update_hf (f : PayloadRow → String) :
    ∀ (old : String) (row : PayloadRow),
      pyOr (f row) old = old ∨ ∀ old', pyOr (f row) old' = pyOr (f row) old :=
  fun old row =>
    if h : f row = "" then Or.inl (by rw [h, pyOr_empty_left])
    else Or.inr (fun old' => by rw [pyOr_of_ne_empty _ h, pyOr_of_ne_empty _ h])

theorem overwrite_update_hf {α : Type} (p : PayloadRow → Prop) [DecidablePred p]
    (v : PayloadRow → α) :
    ∀ (old : α) (row : PayloadRow),
      (if p row then v row else old) = old ∨
        ∀ old', (if p row then v row else old') = (if p row then v row else old) :=
  fun old row =>
    if h : p row then Or.inr (fun old' => by rw [if_pos h, if_pos h])
    else Or.inl (if_neg h)

theorem recFold_stable (stamp : String) (rows : List PayloadRow)
    (rec : StateRecord) :
    recFold stamp rows (recFold stamp rows rec) = recFold stamp rows rec := by
  ext : 1
  case job_uid => simp [recFold_job_uid]
  case first_seen_at => simp [recFold_first_seen]
  case last_sent_at => simp [recFold_last_sent]
  case source =>
    simp only [recFold_source]
    exact foldl_update_stable _ (pyOr_update_hf (·.source)) rows rec.source
  case link =>
    simp only [recFold_link]
    exact foldl_update_stable _ (pyOr_update_hf rowLinkChain) rows rec.link
  case title =>
    simp only [recFold_title]
    exact foldl_update_stable _ (pyOr_update_hf (·.title)) rows rec.title
  case company =>
    simp only [recFold_company]
    exact foldl_update_stable _ (pyOr_update_hf (·.company)) rows rec.company
  case location =>
    simp only [recFold_location]
    exact foldl_update_stable _ (pyOr_update_hf (·.location)) rows rec.location
  case canonical_url =>
    simp only [recFold_canonical]
    exact canonFold_stable rows rec.canonical_url
  case score =>
    simp only [recFold_score]
    exact foldl_update_stable _
      (overwrite_update_hf (fun row => row.score ≠ "") (·.score)) rows rec.score
  case match_ =>
    simp only [recFold_match]
    exact foldl_update_stable _
      (overwrite_update_hf (fun row => row.match_ ≠ "") (·.match_)) rows rec.match_
  case date =>
    simp only [recFold_date]
    exact foldl_update_stable _
      (overwrite_update_hf (fun row => row.date ≠ "") (·.date)) rows rec.date
  case commute_min =>
    simp only [recFold_commute]
    exact foldl_update_stable _
      (overwrite_update_hf (fun row => row.commute_min ≠ none) (·.commute_min))
      rows rec.commute_min
  case last_seen_at =>
    cases rows <;> simp [recFold_last_seen]
  case missing_runs =>
    cases rows <;> simp [recFold_missing]
  case status =>
    cases rows with
    | nil => rfl
    | cons x t =>
      simp only [recFold_status, recFold_last_sent, if_neg (List.cons_ne_nil x t)]
      exact statusStep_idem rec.last_sent_at rec.status

/-- A freshly created record is a fixed point of its own row's refresh. -/
theorem applyRow_newRecord (stamp : String) (row : PayloadRow) :
    applyRowToRecord stamp row
        (newRecordOfRow stamp (build_job_uid row).1 (build_job_uid row).2 row) =
      newRecordOfRow stamp (build_job_uid row).1 (build_job_uid row).2 row := by
  unfold applyRowToRecord newRecordOfRow
  ext : 1 <;>
    simp [pyOr_self, pyOr_absorb, ite_self,
      statusStep_self none (by decide : STATUS_NEW ≠ "")
        (by decide : STATUS_NEW ≠ STATUS_CLOSED)]

/-! ## Lookup through the state-level maps -/

theorem stateGet_mergeAbsent (seen : List String) (now_dt cmr cnsd : Int) :
    ∀ (st : JobState) (uid : String),
      stateGet (mergeAbsent seen now_dt cmr cnsd st) uid =
        (stateGet st uid).map (fun r =>
          if uid ∈ seen then r
          else if r.status = STATUS_APPLIED ∨ r.status = STATUS_IGNORED ∨
              r.status = STATUS_CLOSED then r
          else closeAbsentRecord now_dt cmr cnsd r)
  | [], _ => rfl
  | e :: t, uid => by
    have tail := stateGet_mergeAbsent seen now_dt cmr cnsd t uid
    simp only [mergeAbsent] at tail ⊢
    simp only [List.map_cons]
    by_cases hseen : e.1 ∈ seen
    · rw [if_pos hseen]
      by_cases h : e.1 = uid
      · subst h
        simp [stateGet, hseen]
      · simp [stateGet, h, tail]
    · rw [if_neg hseen]
      by_cases hst : e.2.status = STATUS_APPLIED ∨ e.2.status = STATUS_IGNORED ∨
          e.2.status = STATUS_CLOSED
      · rw [if_pos hst]
        by_cases h : e.1 = uid
        · subst h
          simp [stateGet, hseen, hst]
        · simp [stateGet, h, tail]
      · rw [if_neg hst]
        by_cases h : e.1 = uid
        · subst h
          simp [stateGet, hseen, hst]
        · simp [stateGet, h, tail]

theorem stateGet_markNotified (stamp : String) (uids : List String) :
    ∀ (st : JobState) (uid : String),
      stateGet (markNotified stamp uids st) uid =
        (stateGet st uid).map (fun r =>
          if uid ∈ uids then
            { r with status := STATUS_NOTIFIED, last_sent_at := some stamp }
          else r)
  | [], _ => rfl
  | e :: t, uid => by
    have tail := stateGet_markNotified stamp uids t uid
    simp only [markNotified] at tail ⊢
    simp only [List.map_cons]
    by_cases hmem : e.1 ∈ uids
    · rw [if_pos hmem]
      by_cases h : e.1 = uid
      · subst h
        simp [stateGet, hmem]
      · simp [stateGet, h, tail]
    · rw [if_neg hmem]
      by_cases h : e.1 = uid
      · subst h
        simp [stateGet, hmem]
      · simp [stateGet, h, tail]

theorem stateGet_closeAggregator (terminal_statuses : List String)
    (status_closed : String) :
    ∀ (st : JobState) (uid : String),
      stateGet (close_aggregator_records st terminal_statuses status_closed).1 uid =
        (stateGet st uid).map (fun r =>
          if pyLower (pyStrip r.source) ∈ AGGREGATOR_SOURCES ∧
              r.status ∉ terminal_statuses
          then { r with status := status_closed } else r)
  | [], _ => rfl
  | e :: t, uid => by
    have tail := stateGet_closeAggregator terminal_statuses status_closed t uid
    simp only [close_aggregator_records] at tail ⊢
    simp only [List.map_cons]
    by_cases hagg : pyLower (pyStrip e.2.source) ∈ AGGREGATOR_SOURCES ∧
        e.2.status ∉ terminal_statuses
    · rw [if_pos hagg]
      by_cases h : e.1 = uid
      · subst h
        simp [stateGet, hagg]
      · simp [stateGet, h, tail]
    · rw [if_neg hagg]
      by_cases h : e.1 = uid
      · subst h
        simp [stateGet, hagg]
      · simp [stateGet, h, tail]

/-! ## Assorted helper lemmas for the claims -/

theorem stateGet_mergePayload (payload : List PayloadRow) (st : JobState)
    (stamp : String) (now_dt cmr cnsd : Int) (uid : String) :
    stateGet (_merge_payload payload st stamp now_dt cmr cnsd) uid =
      (stateGet (mergeRows stamp payload st) uid).map (fun r =>
        if uid ∈ seenThisRun payload then r
        else if r.status = STATUS_APPLIED ∨ r.status = STATUS_IGNORED ∨
            r.status = STATUS_CLOSED then r
        else closeAbsentRecord now_dt cmr cnsd r) :=
  stateGet_mergeAbsent (seenThisRun payload) now_dt cmr cnsd
    (mergeRows stamp payload st) uid

theorem closeAbsentRecord_missing (now_dt cmr cnsd : Int) (r : StateRecord) :
    (closeAbsentRecord now_dt cmr cnsd r).missing_runs = r.missing_runs + 1 := by
  simp only [closeAbsentRecord]
  split <;> rfl

theorem closeAbsentRecord_status (now_dt cmr cnsd : Int) (r : StateRecord) :
    (closeAbsentRecord now_dt cmr cnsd r).status =
      if (0 < cmr ∧ cmr ≤ r.missing_runs + 1) ∨
          (0 < cnsd ∧ cnsd ≤ daysMissing now_dt r.last_seen_at)
      then STATUS_CLOSED else r.status := by
  simp only [closeAbsentRecord]
  split <;> rfl

theorem closeAbsentRecord_first_seen (now_dt cmr cnsd : Int) (r : StateRecord) :
    (closeAbsentRecord now_dt cmr cnsd r).first_seen_at = r.first_seen_at := by
  simp only [closeAbsentRecord]
  split <;> rfl

theorem closeAbsentRecord_of_not {now_dt cmr cnsd : Int} {r : StateRecord}
    (h : ¬ ((0 < cmr ∧ cmr ≤ r.missing_runs + 1) ∨
      (0 < cnsd ∧ cnsd ≤ daysMissing now_dt r.last_seen_at))) :
    closeAbsentRecord now_dt cmr cnsd r =
      { r with missing_runs := r.missing_runs + 1 } := by
  simp only [closeAbsentRecord]
  rw [if_neg h]

/-- A record in a user-terminal status keeps its status through a whole
reconciliation pass (shared by the C1 and C2 theorems). -/
theorem merge_preserves_user_terminal (payload : List PayloadRow) (st : JobState)
    (stamp : String) (now_dt cmr cnsd : Int) (uid : String) (r : StateRecord)
    (hget : stateGet st uid = some r)
    (hst : r.status = STATUS_APPLIED ∨ r.status = STATUS_IGNORED) :
    (stateGet (_merge_payload payload st stamp now_dt cmr cnsd) uid).map
      (·.status) = some r.status := by
  have hne : r.status ≠ "" := by
    rcases hst with h | h <;> rw [h] <;> decide
  have hncl : r.status ≠ STATUS_CLOSED := by
    rcases hst with h | h <;> rw [h] <;> decide
  rw [stateGet_mergePayload,
    stateGet_mergeRows_of_some stamp payload st uid r hget]
  have hXstatus :
      (recFold stamp
        (payload.filter (fun row => (build_job_uid row).1 = uid)) r).status =
        r.status := by
    rw [recFold_status]
    split
    · rfl
    · exact statusStep_self r.last_sent_at hne hncl
  simp only [Option.map_some']
  split_ifs with h1 h2
  · simp [hXstatus]
  · simp [hXstatus]
  · exact absurd (by rw [hXstatus]; tauto) h2

/-! ## C5 -/

/-- C5: `should_send_reminder` is true exactly when daily reminders are on,
or `last_sent_at` is `None`/empty, or `reminder_days ≤ 0`, or `last_sent_at`
does not parse, or the whole elapsed days since `last_sent_at` reach
`reminder_days`; being a Lean function of its four arguments it is pure. -/
theorem c5_should_send_reminder_iff (last_sent_at : Option String)
    (now_dt reminder_days : Int) (daily_reminders : Bool) :
    should_send_reminder last_sent_at now_dt reminder_days daily_reminders = true ↔
      (daily_reminders = true ∨ last_sent_at = none ∨ last_sent_at = some "" ∨
        reminder_days ≤ 0 ∨ parse_ts last_sent_at = none ∨
        ∃ t, parse_ts last_sent_at = some t ∧
          reminder_days ≤ Int.fdiv (now_dt - t) 86400) := by
  unfold should_send_reminder
  by_cases hd : daily_reminders = true
  · simp [hd]
  · have hd' : daily_reminders = false := by simpa using hd
    subst hd'
    rcases last_sent_at with _ | s
    · simp [optTruthy, parse_ts]
    · by_cases hs : s = ""
      · subst hs
        simp [optTruthy, parse_ts]
      · by_cases hrd : reminder_days ≤ 0
        · simp [optTruthy, hs, hrd]
        · rcases hp : parse_ts (some s) with _ | t
          · simp [optTruthy, hs, hrd, hp]
          · simp [optTruthy, hs, hrd, hp]

/-! ## C8 -/

/-- C8: on inputs with a scheme and a host, `canonicalize_url` rebuilds the
URL from the lowercased scheme, the lowercased netloc and the
trailing-slash-stripped path alone — the query, fragment and params are
dropped and the path's case is preserved; the claim's concrete pair
canonicalizes to the same string, and `""` canonicalizes to `""`. -/
theorem c8_canonicalize_url :
    (∀ url : String, url ≠ "" →
      (urlparseModel (pyStrip url)).scheme ≠ "" →
      (urlparseModel (pyStrip url)).netloc ≠ "" →
      canonicalize_url url =
        urlunparseModel
          ⟨pyLower (urlparseModel (pyStrip url)).scheme,
           pyLower (urlparseModel (pyStrip url)).netloc,
           stripTrailingSlash (urlparseModel (pyStrip url)).path, "", "", ""⟩) ∧
    canonicalize_url "HTTPS://Example.com/Job/123/?utm=x#frag" =
      canonicalize_url "https://example.com/Job/123" ∧
    canonicalize_url "" = "" := by
  refine ⟨fun url h1 h2 h3 => ?_, by rfl, rfl⟩
  unfold canonicalize_url
  rw [if_neg h1, if_neg (by simp [h2, h3])]

/-- Witness for C8 at the claim's concrete URL. -/
theorem c8_witness :
    canonicalize_url "HTTPS://Example.com/Job/123/?utm=x#frag" =
      urlunparseModel
        ⟨pyLower (urlparseModel (pyStrip "HTTPS://Example.com/Job/123/?utm=x#frag")).scheme,
         pyLower (urlparseModel (pyStrip "HTTPS://Example.com/Job/123/?utm=x#frag")).netloc,
         stripTrailingSlash
           (urlparseModel (pyStrip "HTTPS://Example.com/Job/123/?utm=x#frag")).path,
         "", "", ""⟩ :=
  c8_canonicalize_url.1 _ (by decide) (by decide) (by decide)

/-! ## C2 -/

/-- C2: a record whose status is `applied` or `ignored` before a
reconciliation pass has the same status afterwards, whether or not its UID
is in the fresh batch. -/
theorem c2_user_terminal_sticky (payload : List PayloadRow) (st : JobState)
    (stamp : String) (now_dt cmr cnsd : Int) (uid : String) (r : StateRecord)
    (hget : stateGet st uid = some r)
    (hst : r.status = STATUS_APPLIED ∨ r.status = STATUS_IGNORED) :
    (stateGet (_merge_payload payload st stamp now_dt cmr cnsd) uid).map
      (·.status) = some r.status :=
  merge_preserves_user_terminal payload st stamp now_dt cmr cnsd uid r hget hst

/-- Witness for C2: an `applied` record, absent from an empty batch. -/
theorem c2_witness :
    (stateGet
      (_merge_payload [] [("u", { status := STATUS_APPLIED })] "s" 0 3 7) "u").map
      (·.status) = some ({ status := STATUS_APPLIED : StateRecord }).status :=
  c2_user_terminal_sticky [] [("u", { status := STATUS_APPLIED })] "s" 0 3 7 "u"
    { status := STATUS_APPLIED } (by decide) (Or.inl rfl)

/-! ## C4 -/

/-- C4: after a confirmed (non-dry, non-empty, successful) send every
dispatched record is `notified` with `last_sent_at = stamp`; a dry run, a
sender failure or an empty dispatch set leaves the state untouched. -/
theorem c4_maybe_send_mail (dry_run sender_ok : Bool)
    (send_jobs send_reminders : List String) (stamp : String) (st : JobState) :
    ((dry_run = false ∧ sender_ok = true ∧
        ¬ (send_jobs = [] ∧ send_reminders = [])) →
      ∀ uid r, stateGet st uid = some r → uid ∈ send_jobs ++ send_reminders →
        stateGet (_maybe_send_mail dry_run sender_ok send_jobs send_reminders
            stamp st).1 uid =
          some { r with status := STATUS_NOTIFIED, last_sent_at := some stamp }) ∧
    ((dry_run = true ∨ sender_ok = false ∨
        (send_jobs = [] ∧ send_reminders = [])) →
      (_maybe_send_mail dry_run sender_ok send_jobs send_reminders stamp st).1 = st) := by
  constructor
  · rintro ⟨hdry, hok, hne⟩ uid r hget hmem
    unfold _maybe_send_mail
    rw [if_neg hne, if_neg (by simp [hdry]), if_neg (by simp [hok])]
    rw [stateGet_markNotified stamp _ st uid, hget]
    simp [hmem]
  · intro h
    unfold _maybe_send_mail
    rcases h with h | h | h
    · subst h
      split
      · rfl
      · rw [if_pos rfl]
    · subst h
      split
      · rfl
      · split
        · rfl
        · rw [if_pos rfl]
    · rw [if_pos h]

/-- Witness for C4: a confirmed send marks the dispatched record, and the
same dispatch under a dry run changes nothing. -/
theorem c4_witness :
    stateGet (_maybe_send_mail false true ["u"] [] "s"
        [("u", { status := STATUS_NEW })]).1 "u" =
      some { ({ status := STATUS_NEW } : StateRecord) with
        status := STATUS_NOTIFIED, last_sent_at := some "s" } ∧
    (_maybe_send_mail true true ["u"] [] "s" [("u", { status := STATUS_NEW })]).1 =
      [("u", { status := STATUS_NEW })] :=
  ⟨(c4_maybe_send_mail false true ["u"] [] "s" [("u", { status := STATUS_NEW })]).1
      ⟨rfl, rfl, by decide⟩ "u" { status := STATUS_NEW } (by decide) (by decide),
   (c4_maybe_send_mail true true ["u"] [] "s" [("u", { status := STATUS_NEW })]).2
      (Or.inl rfl)⟩

/-! ## Shared behaviour of a pass on an absent open record -/

/-- A record absent from the batch and not in a terminal status goes through
exactly `closeAbsentRecord` (shared by the C1, C3 and C10 theorems). -/
theorem mergePayload_absent_open (payload : List PayloadRow) (st : JobState)
    (stamp : String) (now_dt cmr cnsd : Int) (uid : String) (r : StateRecord)
    (hget : stateGet st uid = some r) (habs : uid ∉ seenThisRun payload)
    (h1 : r.status ≠ STATUS_APPLIED) (h2 : r.status ≠ STATUS_IGNORED)
    (h3 : r.status ≠ STATUS_CLOSED) :
    stateGet (_merge_payload payload st stamp now_dt cmr cnsd) uid =
      some (closeAbsentRecord now_dt cmr cnsd r) := by
  have hfl : payload.filter (fun row => (build_job_uid row).1 = uid) = [] := by
    by_contra hne
    exact habs (mem_seenThisRun.mpr hne)
  rw [stateGet_mergePayload,
    stateGet_mergeRows_of_some stamp payload st uid r hget, hfl]
  simp only [recFold, List.foldl_nil, Option.map_some']
  rw [if_neg habs, if_neg (by tauto)]

/-- Present UID over an existing record: the pass applies exactly the
matching rows, and the absence loop skips the record. -/
theorem mergePayload_seen_some (payload : List PayloadRow) (st : JobState)
    (stamp : String) (now_dt cmr cnsd : Int) (uid : String) (r : StateRecord)
    (hseen : uid ∈ seenThisRun payload) (hget : stateGet st uid = some r) :
    stateGet (_merge_payload payload st stamp now_dt cmr cnsd) uid =
      some (recFold stamp
        (payload.filter (fun row => (build_job_uid row).1 = uid)) r) := by
  rw [stateGet_mergePayload,
    stateGet_mergeRows_of_some stamp payload st uid r hget]
  simp only [Option.map_some']
  rw [if_pos hseen]

/-- Present UID over a fresh record: the first matching row creates the
record — a fixed point of its own refresh — and the rest refresh it. -/
theorem mergePayload_seen_none (payload : List PayloadRow) (st : JobState)
    (stamp : String) (now_dt cmr cnsd : Int) (uid : String)
    (hseen : uid ∈ seenThisRun payload) (hget : stateGet st uid = none) :
    ∃ row rest,
      payload.filter (fun row => (build_job_uid row).1 = uid) = row :: rest ∧
      stateGet (_merge_payload payload st stamp now_dt cmr cnsd) uid =
        some (recFold stamp (row :: rest)
          (newRecordOfRow stamp uid (build_job_uid row).2 row)) := by
  rcases hfl : payload.filter (fun row => (build_job_uid row).1 = uid) with
    _ | ⟨row, rest⟩
  · exact absurd hfl (mem_seenThisRun.mp hseen)
  · refine ⟨row, rest, rfl, ?_⟩
    rw [stateGet_mergePayload,
      stateGet_mergeRows_of_none stamp payload st uid hget, hfl]
    have huid : (build_job_uid row).1 = uid := by
      have : row ∈ payload.filter (fun row => (build_job_uid row).1 = uid) := by
        rw [hfl]
        exact List.mem_cons_self row rest
      simpa using (List.of_mem_filter this)
    have hfix : recFold stamp (row :: rest)
        (newRecordOfRow stamp uid (build_job_uid row).2 row) =
        recFold stamp rest
          (newRecordOfRow stamp uid (build_job_uid row).2 row) := by
      show recFold stamp rest
        (applyRowToRecord stamp row (newRecordOfRow stamp uid (build_job_uid row).2 row)) = _
      rw [← huid, applyRow_newRecord]
    rw [hfix]
    simp only [Option.map_some']
    rw [if_pos hseen]

/-- Absent UID over a record already in a terminal status: untouched. -/
theorem mergePayload_absent_terminal (payload : List PayloadRow) (st : JobState)
    (stamp : String) (now_dt cmr cnsd : Int) (uid : String) (r : StateRecord)
    (habs : uid ∉ seenThisRun payload) (hget : stateGet st uid = some r)
    (hterm : r.status = STATUS_APPLIED ∨ r.status = STATUS_IGNORED ∨
      r.status = STATUS_CLOSED) :
    stateGet (_merge_payload payload st stamp now_dt cmr cnsd) uid = some r := by
  have hfl : payload.filter (fun row => (build_job_uid row).1 = uid) = [] := by
    by_contra hne
    exact habs (mem_seenThisRun.mpr hne)
  rw [stateGet_mergePayload,
    stateGet_mergeRows_of_some stamp payload st uid r hget, hfl]
  simp only [recFold, List.foldl_nil, Option.map_some']
  rw [if_neg habs, if_pos hterm]

/-- A UID with no record and no matching row stays absent. -/
theorem mergePayload_none (payload : List PayloadRow) (st : JobState)
    (stamp : String) (now_dt cmr cnsd : Int) (uid : String)
    (habs : uid ∉ seenThisRun payload) (hget : stateGet st uid = none) :
    stateGet (_merge_payload payload st stamp now_dt cmr cnsd) uid = none := by
  have hfl : payload.filter (fun row => (build_job_uid row).1 = uid) = [] := by
    by_contra hne
    exact habs (mem_seenThisRun.mpr hne)
  rw [stateGet_mergePayload,
    stateGet_mergeRows_of_none stamp payload st uid hget, hfl]
  rfl

/-! ## C10 -/

/-- C10: with both closure thresholds non-positive no record ever becomes
`closed` in a reconciliation pass — whatever `missing_runs` or
`last_seen_at` are — while absent open records still get `missing_runs`
incremented by 1. -/
theorem c10_nonpositive_thresholds_disable_closure (payload : List PayloadRow)
    (st : JobState) (stamp : String) (now_dt cmr cnsd : Int)
    (hcmr : cmr ≤ 0) (hcnsd : cnsd ≤ 0) :
    (∀ uid r', stateGet (_merge_payload payload st stamp now_dt cmr cnsd) uid =
        some r' → r'.status = STATUS_CLOSED →
      ∃ r, stateGet st uid = some r ∧ r.status = STATUS_CLOSED) ∧
    (∀ uid r, stateGet st uid = some r → uid ∉ seenThisRun payload →
      r.status ≠ STATUS_APPLIED → r.status ≠ STATUS_IGNORED →
      r.status ≠ STATUS_CLOSED →
      stateGet (_merge_payload payload st stamp now_dt cmr cnsd) uid =
        some { r with missing_runs := r.missing_runs + 1 }) := by
  have hnocond : ∀ r : StateRecord,
      ¬ ((0 < cmr ∧ cmr ≤ r.missing_runs + 1) ∨
        (0 < cnsd ∧ cnsd ≤ daysMissing now_dt r.last_seen_at)) := by
    intro r
    push_neg
    constructor
    · intro h
      omega
    · intro h
      omega
  constructor
  · intro uid r' hget' hclosed
    by_cases hseen : uid ∈ seenThisRun payload
    · rcases hget0 : stateGet st uid with _ | r
      · exfalso
        obtain ⟨row, rest, -, heq⟩ :=
          mergePayload_seen_none payload st stamp now_dt cmr cnsd uid hseen hget0
        rw [heq] at hget'
        have hx := Option.some.inj hget'
        have hne : r'.status ≠ STATUS_CLOSED := by
          rw [← hx, recFold_status, if_neg (List.cons_ne_nil row rest)]
          exact statusStep_ne_closed _ _
        exact hne hclosed
      · exfalso
        have hfl : payload.filter (fun row => (build_job_uid row).1 = uid) ≠ [] :=
          mem_seenThisRun.mp hseen
        rw [mergePayload_seen_some payload st stamp now_dt cmr cnsd uid r hseen
          hget0] at hget'
        have hx := Option.some.inj hget'
        have hne : r'.status ≠ STATUS_CLOSED := by
          rw [← hx, recFold_status, if_neg hfl]
          exact statusStep_ne_closed _ _
        exact hne hclosed
    · rcases hget0 : stateGet st uid with _ | r
      · rw [mergePayload_none payload st stamp now_dt cmr cnsd uid hseen hget0]
          at hget'
        cases hget'
      · by_cases hterm : r.status = STATUS_APPLIED ∨ r.status = STATUS_IGNORED ∨
            r.status = STATUS_CLOSED
        · rw [mergePayload_absent_terminal payload st stamp now_dt cmr cnsd uid r
            hseen hget0 hterm] at hget'
          have hx := Option.some.inj hget'
          refine ⟨r, ?_, by rw [hx]; exact hclosed⟩
          first
          | exact hget0
          | rfl
        · push_neg at hterm
          obtain ⟨ha, hi, hc⟩ := hterm
          exfalso
          rw [mergePayload_absent_open payload st stamp now_dt cmr cnsd uid r
            hget0 hseen ha hi hc] at hget'
          have hx := Option.some.inj hget'
          have : r'.status = r.status := by
            rw [← hx, closeAbsentRecord_status, if_neg (hnocond r)]
          exact hc (by rw [← this]; exact hclosed)
  · intro uid r hget habs h1 h2 h3
    rw [mergePayload_absent_open payload st stamp now_dt cmr cnsd uid r hget
      habs h1 h2 h3]
    rw [closeAbsentRecord_of_not (hnocond r)]

/-- Witness for C10: thresholds `0`, one absent `new` record: not closed,
`missing_runs` goes from 0 to 1. -/
theorem c10_witness :
    stateGet (_merge_payload [] [("u", { status := STATUS_NEW })] "s" 0 0 0) "u" =
      some { ({ status := STATUS_NEW } : StateRecord) with
        missing_runs := ({ status := STATUS_NEW } : StateRecord).missing_runs + 1 } :=
  (c10_nonpositive_thresholds_disable_closure [] [("u", { status := STATUS_NEW })]
    "s" 0 0 0 (by decide) (by decide)).2 "u" { status := STATUS_NEW }
    (by decide) (by decide) (by decide) (by decide) (by decide)

/-! ## C3 -/

/-- Iterating the pass over a persistently absent open record: as long as
`missing_runs` stays below a positive `close_missing_runs` (and the days
threshold is not crossed), each pass only increments the counter. -/
theorem mergePayload_absent_iter (payload : List PayloadRow) (stamp : String)
    (now_dt cmr cnsd : Int) (uid : String) (r : StateRecord)
    (habs : uid ∉ seenThisRun payload)
    (h1 : r.status ≠ STATUS_APPLIED) (h2 : r.status ≠ STATUS_IGNORED)
    (h3 : r.status ≠ STATUS_CLOSED) (hmr : r.missing_runs = 0)
    (hdays : ¬ (0 < cnsd ∧ cnsd ≤ daysMissing now_dt r.last_seen_at)) :
    ∀ (j : Nat), (j : Int) ≤ cmr - 1 → ∀ (st : JobState),
      stateGet st uid = some r →
      stateGet ((fun s => _merge_payload payload s stamp now_dt cmr cnsd)^[j] st)
          uid =
        some { r with missing_runs := (j : Int) }
  | 0, _, st, hget => by
    rw [Function.iterate_zero_apply, hget]
    rw [show ({ r with missing_runs := ((0 : Nat) : Int) } : StateRecord) = r by
      rw [show ((0 : Nat) : Int) = r.missing_runs by rw [hmr]; rfl]]
  | j + 1, hj, st, hget => by
    have hj' : (j : Int) ≤ cmr - 1 := by push_cast at hj ⊢; omega
    have prev := mergePayload_absent_iter payload stamp now_dt cmr cnsd uid r
      habs h1 h2 h3 hmr hdays j hj' st hget
    rw [Function.iterate_succ_apply']
    rw [mergePayload_absent_open payload _ stamp now_dt cmr cnsd uid
      { r with missing_runs := (j : Int) } prev habs h1 h2 h3]
    have hcond : ¬ ((0 < cmr ∧
        cmr ≤ ({ r with missing_runs := (j : Int) } : StateRecord).missing_runs + 1) ∨
        (0 < cnsd ∧ cnsd ≤ daysMissing now_dt
          ({ r with missing_runs := (j : Int) } : StateRecord).last_seen_at)) := by
      push_neg
      refine ⟨fun _ => ?_, fun hpos => ?_⟩
      · show (j : Int) + 1 < cmr
        push_cast at hj
        omega
      · by_contra hle
        exact hdays ⟨hpos, by simpa using hle⟩
    rw [closeAbsentRecord_of_not hcond]
    have : ((j + 1 : Nat) : Int) = (j : Int) + 1 := by push_cast; ring
    rw [this]

/-- C3 (amended): in a reconciliation pass, an absent record that is not
`applied`/`ignored`/`closed` gets `missing_runs` incremented by exactly 1
and becomes `closed` exactly when a **positive** `close_missing_runs` is
reached by the incremented counter or a **positive** `close_not_seen_days`
is reached by the whole days since `last_seen_at`; every UID present in the
batch ends the pass with `missing_runs = 0`; and with `close_missing_runs =
k > 0` (days threshold not crossed) a fresh record absent for exactly `k`
consecutive passes is `closed` while after `k - 1` passes its status is
unchanged. -/
theorem c3_absence_closure (payload : List PayloadRow) (st : JobState)
    (stamp : String) (now_dt cmr cnsd : Int) (uid : String) (r : StateRecord)
    (hget : stateGet st uid = some r) (habs : uid ∉ seenThisRun payload)
    (h1 : r.status ≠ STATUS_APPLIED) (h2 : r.status ≠ STATUS_IGNORED)
    (h3 : r.status ≠ STATUS_CLOSED) :
    stateGet (_merge_payload payload st stamp now_dt cmr cnsd) uid =
      some (closeAbsentRecord now_dt cmr cnsd r) ∧
    (closeAbsentRecord now_dt cmr cnsd r).missing_runs = r.missing_runs + 1 ∧
    ((closeAbsentRecord now_dt cmr cnsd r).status = STATUS_CLOSED ↔
      (0 < cmr ∧ cmr ≤ r.missing_runs + 1) ∨
        (0 < cnsd ∧ cnsd ≤ daysMissing now_dt r.last_seen_at)) ∧
    (∀ (st' : JobState) (uid' : String), uid' ∈ seenThisRun payload →
      (stateGet (_merge_payload payload st' stamp now_dt cmr cnsd) uid').map
        (·.missing_runs) = some 0) ∧
    (r.missing_runs = 0 → 0 < cmr →
      ¬ (0 < cnsd ∧ cnsd ≤ daysMissing now_dt r.last_seen_at) →
      (stateGet
          ((fun s => _merge_payload payload s stamp now_dt cmr cnsd)^[cmr.toNat]
            st) uid).map (·.status) = some STATUS_CLOSED ∧
      (stateGet
          ((fun s => _merge_payload payload s stamp now_dt cmr cnsd)^[cmr.toNat - 1]
            st) uid).map (·.status) = some r.status) := by
  refine ⟨mergePayload_absent_open payload st stamp now_dt cmr cnsd uid r hget
      habs h1 h2 h3,
    closeAbsentRecord_missing now_dt cmr cnsd r, ?_, ?_, ?_⟩
  · rw [closeAbsentRecord_status]
    constructor
    · intro hcl
      by_contra hnc
      rw [if_neg hnc] at hcl
      exact h3 hcl
    · intro hc
      rw [if_pos hc]
  · intro st' uid' hseen
    rcases hget0 : stateGet st' uid' with _ | r0
    · obtain ⟨row, rest, -, heq⟩ := mergePayload_seen_none payload st' stamp
        now_dt cmr cnsd uid' hseen hget0
      rw [heq]
      simp only [Option.map_some']
      rw [recFold_missing, if_neg (List.cons_ne_nil row rest)]
    · rw [mergePayload_seen_some payload st' stamp now_dt cmr cnsd uid' r0
        hseen hget0]
      simp only [Option.map_some']
      rw [recFold_missing, if_neg (mem_seenThisRun.mp hseen)]
  · intro hmr hpos hdays
    have hk : (cmr.toNat : Int) = cmr := Int.toNat_of_nonneg (le_of_lt hpos)
    have hkpos : 1 ≤ cmr.toNat := by omega
    have hprev := mergePayload_absent_iter payload stamp now_dt cmr cnsd uid r
      habs h1 h2 h3 hmr hdays (cmr.toNat - 1) (by omega) st hget
    constructor
    · rw [show cmr.toNat = (cmr.toNat - 1) + 1 by omega,
        Function.iterate_succ_apply']
      rw [mergePayload_absent_open payload _ stamp now_dt cmr cnsd uid
        { r with missing_runs := ((cmr.toNat - 1 : Nat) : Int) } hprev habs h1 h2 h3]
      simp only [Option.map_some']
      rw [closeAbsentRecord_status, if_pos]
      left
      refine ⟨hpos, ?_⟩
      show cmr ≤ ((cmr.toNat - 1 : Nat) : Int) + 1
      omega
    · rw [hprev]
      simp only [Option.map_some']

/-- C3 counterexample (to the claim as stated): with `close_missing_runs = 0`
and `close_not_seen_days = 0` an absent `new` record reaches
`missing_runs = 1 ≥ close_missing_runs`, yet its status is not `closed` —
the code additionally requires the crossed threshold to be positive. -/
theorem c3_counterexample :
    (1 : Int) ≥ 0 ∧
    (stateGet (_merge_payload [] [("u", { status := STATUS_NEW })] "s" 0 0 0)
        "u").map (·.missing_runs) = some 1 ∧
    (stateGet (_merge_payload [] [("u", { status := STATUS_NEW })] "s" 0 0 0)
        "u").map (·.status) = some STATUS_NEW := by
  refine ⟨by decide, by decide, by decide⟩

/-- Witness for C3 with `close_missing_runs = 1`: one absent pass closes the
record, zero passes leave it `new`. -/
theorem c3_witness :
    (stateGet (_merge_payload [] [("u", { status := STATUS_NEW })] "s" 0 1 7)
        "u") = some (closeAbsentRecord 0 1 7 { status := STATUS_NEW }) ∧
    ((stateGet
        ((fun s => _merge_payload [] s "s" 0 1 7)^[(1 : Int).toNat]
          [("u", { status := STATUS_NEW })]) "u").map (·.status) =
      some STATUS_CLOSED ∧
    (stateGet
        ((fun s => _merge_payload [] s "s" 0 1 7)^[(1 : Int).toNat - 1]
          [("u", { status := STATUS_NEW })]) "u").map (·.status) =
      some ({ status := STATUS_NEW } : StateRecord).status) :=
  have h := c3_absence_closure [] [("u", { status := STATUS_NEW })] "s" 0 1 7
    "u" { status := STATUS_NEW } (by decide) (by decide) (by decide) (by decide)
    (by decide)
  ⟨h.1, h.2.2.2.2 (by decide) (by decide) (by decide)⟩

/-! ## C9 -/

/-- C9 (amended): for every UID present in the batch, a second
reconciliation pass with the same payload, stamp and now leaves that
record exactly as after the first pass, and the first pass already leaves
it with `missing_runs = 0`; and no pass ever modifies `first_seen_at` of an
existing record.  (Absent open records are *not* left unchanged — their
`missing_runs` grows each pass, see the counterexample.) -/
theorem c9_idempotent_for_present (payload : List PayloadRow) (st : JobState)
    (stamp : String) (now_dt cmr cnsd : Int) :
    (∀ uid, uid ∈ seenThisRun payload →
      stateGet
          (_merge_payload payload
            (_merge_payload payload st stamp now_dt cmr cnsd)
            stamp now_dt cmr cnsd) uid =
        stateGet (_merge_payload payload st stamp now_dt cmr cnsd) uid ∧
      (stateGet (_merge_payload payload st stamp now_dt cmr cnsd) uid).map
        (·.missing_runs) = some 0) ∧
    (∀ uid r, stateGet st uid = some r →
      (stateGet (_merge_payload payload st stamp now_dt cmr cnsd) uid).map
        (·.first_seen_at) = some r.first_seen_at) := by
  constructor
  · intro uid hseen
    have hfl := mem_seenThisRun.mp hseen
    rcases hget0 : stateGet st uid with _ | r
    · obtain ⟨row, rest, hfleq, heq⟩ := mergePayload_seen_none payload st stamp
        now_dt cmr cnsd uid hseen hget0
      constructor
      · rw [mergePayload_seen_some payload _ stamp now_dt cmr cnsd uid _ hseen
          heq, heq, hfleq, recFold_stable]
      · rw [heq]
        simp only [Option.map_some']
        rw [recFold_missing, if_neg (List.cons_ne_nil row rest)]
    · have heq := mergePayload_seen_some payload st stamp now_dt cmr cnsd uid r
        hseen hget0
      constructor
      · rw [mergePayload_seen_some payload _ stamp now_dt cmr cnsd uid _ hseen
          heq, heq, recFold_stable]
      · rw [heq]
        simp only [Option.map_some']
        rw [recFold_missing, if_neg hfl]
  · intro uid r hget
    by_cases hseen : uid ∈ seenThisRun payload
    · rw [mergePayload_seen_some payload st stamp now_dt cmr cnsd uid r hseen
        hget]
      simp only [Option.map_some']
      rw [recFold_first_seen]
    · by_cases hterm : r.status = STATUS_APPLIED ∨ r.status = STATUS_IGNORED ∨
          r.status = STATUS_CLOSED
      · rw [mergePayload_absent_terminal payload st stamp now_dt cmr cnsd uid r
          hseen hget hterm]
        rfl
      · push_neg at hterm
        rw [mergePayload_absent_open payload st stamp now_dt cmr cnsd uid r hget
          hseen hterm.1 hterm.2.1 hterm.2.2]
        simp only [Option.map_some']
        rw [closeAbsentRecord_first_seen]

/-- C9 counterexample (to the claim as stated): an absent open record is not
left unchanged by a repeated pass — its `missing_runs` keeps growing, so the
state after two passes differs from the state after one. -/
theorem c9_counterexample :
    _merge_payload []
        (_merge_payload [] [("u", { status := STATUS_NEW })] "s" 0 3 7)
        "s" 0 3 7 ≠
      _merge_payload [] [("u", { status := STATUS_NEW })] "s" 0 3 7 := by
  decide

/-- Witness for C9: a one-row batch; its UID's record is identical after the
second pass, has `missing_runs = 0`, and an existing record keeps its
`first_seen_at`. -/
theorem c9_witness :
    (stateGet
        (_merge_payload [{ title := "a" }]
          (_merge_payload [{ title := "a" }] [] "s" 0 3 7) "s" 0 3 7)
        (build_job_uid { title := "a" }).1 =
      stateGet (_merge_payload [{ title := "a" }] [] "s" 0 3 7)
        (build_job_uid { title := "a" }).1 ∧
    (stateGet (_merge_payload [{ title := "a" }] [] "s" 0 3 7)
        (build_job_uid { title := "a" }).1).map (·.missing_runs) = some 0) ∧
    (stateGet
        (_merge_payload [{ title := "a" }] [("u", { first_seen_at := "f" })]
          "s" 0 3 7) "u").map (·.first_seen_at) =
      some ({ first_seen_at := "f" } : StateRecord).first_seen_at :=
  ⟨(c9_idempotent_for_present [{ title := "a" }] [] "s" 0 3 7).1
      (build_job_uid { title := "a" }).1 (by simp [seenThisRun]),
   (c9_idempotent_for_present [{ title := "a" }] [("u", { first_seen_at := "f" })]
      "s" 0 3 7).2 "u" { first_seen_at := "f" } (by decide)⟩

/-! ## C6 -/

theorem urlunparseModel_ne_empty (p : UrlParts) (h : p.scheme ≠ "") :
    urlunparseModel p ≠ "" := by
  simp only [urlunparseModel]
  split_ifs <;>
    · simp only [String.append_assoc]
      exact append_ne_empty_of_left h

/-- A stripped non-empty link canonicalizes to a non-empty string: either it
is returned as-is, or it is rebuilt starting with its non-empty scheme. -/
theorem canonicalize_pyStrip_eq_empty (s : String) :
    canonicalize_url (pyStrip s) = "" ↔ pyStrip s = "" := by
  constructor
  · intro h
    by_contra hne
    simp only [canonicalize_url] at h
    rw [if_neg hne, pyStrip_idem] at h
    split_ifs at h with hcond
    · exact hne h
    · push_neg at hcond
      exact urlunparseModel_ne_empty _
        (fun hh => hcond.1 (pyLower_eq_empty.mp hh)) h
  · intro h
    rw [h]
    rfl

/-- The Identity Builder exactly as the specification words it: priority
link → external id → normalized fallback, `source` defaulting to the
literal `"unknown"`, the UID being the first 16 hex characters of the
SHA-256 digest of the UTF-8 encoded basis, the canonical URL returned
alongside. -/
def buildJobUidSpec (data : PayloadRow) : String × String :=
  let source := resolvedSource data
  let link := pyStrip (rowLinkChain data)
  let canonical_url := canonicalize_url link
  let basis :=
    if link ≠ "" then "url|" ++ source ++ "|" ++ canonical_url
    else
      let external_id := pyStrip (rowIdChain data)
      if external_id ≠ "" then "id|" ++ source ++ "|" ++ external_id
      else
        "fallback|" ++ source ++ "|" ++
          normalize_text (pyOr data.title (pyOr data.job_title data.position)) ++
          "|" ++ normalize_text (pyOr data.company data.employer) ++ "|" ++
          normalize_text (pyOr data.location data.city) ++ "|" ++
          normalize_text link
  (⟨(sha256HexChars (utf8Bytes basis)).take 16⟩, canonical_url)

/-- C6: `build_job_uid` coincides with the specification's description: the
basis is selected by non-emptiness of the (stripped) link chain, then of the
external-id chain, else the normalized fallback; the UID is the first 16 hex
characters of the SHA-256 of the UTF-8 basis, next to the canonical URL. -/
theorem c6_build_job_uid_spec (data : PayloadRow) :
    build_job_uid data = buildJobUidSpec data := by
  simp only [build_job_uid, buildJobUidSpec, buildJobBase]
  by_cases h : pyStrip (rowLinkChain data) = ""
  · simp [h, show canonicalize_url "" = "" from rfl]
  · have hc : canonicalize_url (pyStrip (rowLinkChain data)) ≠ "" :=
      fun hh => h ((canonicalize_pyStrip_eq_empty (rowLinkChain data)).mp hh)
    simp [h, hc]

/-! ## C7 -/

theorem string_data_ext {a b : String} (h : a.data = b.data) : a = b := by
  cases a
  cases b
  exact congrArg String.mk h

theorem string_mk_inj {l1 l2 : List Char} : (⟨l1⟩ : String) = ⟨l2⟩ ↔ l1 = l2 :=
  ⟨fun h => congrArg String.data h, fun h => by rw [h]⟩

theorem string_append_cancel_left {a b c : String} (h : a ++ b = a ++ c) :
    b = c := by
  apply string_data_ext
  have h2 := congrArg String.data h
  rw [String.data_append, String.data_append] at h2
  exact List.append_cancel_left h2

theorem string_append_cancel_right {a b c : String} (h : a ++ c = b ++ c) :
    a = b := by
  apply string_data_ext
  have h2 := congrArg String.data h
  rw [String.data_append, String.data_append] at h2
  exact List.append_cancel_right h2

/-- C7 counterexample: two fallback records whose `source` values are the
different non-empty strings `"a"` and `"a "` (no link, no id, identical
title/company/location) receive the *same* UID — `build_job_uid` strips the
source before hashing. -/
theorem c7_counterexample :
    ({ source := "a" } : PayloadRow).source ≠
      ({ source := "a " } : PayloadRow).source ∧
    ({ source := "a" } : PayloadRow).source ≠ "" ∧
    ({ source := "a " } : PayloadRow).source ≠ "" ∧
    ({ source := "a" } : PayloadRow).link = "" ∧
    ({ source := "a " } : PayloadRow).link = "" ∧
    ({ source := "a" } : PayloadRow).external_id = "" ∧
    ({ source := "a " } : PayloadRow).external_id = "" ∧
    ({ source := "a" } : PayloadRow).title = ({ source := "a " } : PayloadRow).title ∧
    ({ source := "a" } : PayloadRow).company = ({ source := "a " } : PayloadRow).company ∧
    ({ source := "a" } : PayloadRow).location = ({ source := "a " } : PayloadRow).location ∧
    (build_job_uid { source := "a" }).1 = (build_job_uid { source := "a " }).1 := by
  refine ⟨by decide, by decide, by decide, rfl, rfl, rfl, rfl, rfl, rfl, rfl, ?_⟩
  have h : buildJobBase { source := "a" } = buildJobBase { source := "a " } := by
    rfl
  simp only [build_job_uid]
  rw [h]

/-- C7 (amended): on the fallback path (no link, no external id, matching
title/company/location data), records whose sources are non-empty *and
distinct after stripping* get different identity basis strings; their UIDs
differ exactly when the truncated SHA-256 digests of those distinct bases
differ. -/
theorem c7_source_isolation (r1 r2 : PayloadRow)
    (hL1 : r1.link = "") (hL2 : r1.url = "") (hL3 : r1.apply_url = "")
    (hL4 : r1.applyLink = "")
    (hM1 : r2.link = "") (hM2 : r2.url = "") (hM3 : r2.apply_url = "")
    (hM4 : r2.applyLink = "")
    (hI1 : r1.external_id = "") (hI2 : r1.job_id = "") (hI3 : r1.id = "")
    (hJ1 : r2.external_id = "") (hJ2 : r2.job_id = "") (hJ3 : r2.id = "")
    (ht1 : r1.title = r2.title) (ht2 : r1.job_title = r2.job_title)
    (ht3 : r1.position = r2.position)
    (hc1 : r1.company = r2.company) (hc2 : r1.employer = r2.employer)
    (hg1 : r1.location = r2.location) (hg2 : r1.city = r2.city)
    (hs1 : pyStrip (rowSourceChain r1) ≠ "")
    (hs2 : pyStrip (rowSourceChain r2) ≠ "")
    (hsne : pyStrip (rowSourceChain r1) ≠ pyStrip (rowSourceChain r2)) :
    buildJobBase r1 ≠ buildJobBase r2 ∧
    ((build_job_uid r1).1 = (build_job_uid r2).1 ↔
      (sha256HexChars (utf8Bytes (buildJobBase r1))).take 16 =
        (sha256HexChars (utf8Bytes (buildJobBase r2))).take 16) := by
  have hl1 : rowLinkChain r1 = "" := by
    simp [rowLinkChain, hL1, hL2, hL3, hL4, pyOr]
  have hl2 : rowLinkChain r2 = "" := by
    simp [rowLinkChain, hM1, hM2, hM3, hM4, pyOr]
  have hid1 : rowIdChain r1 = "" := by
    simp [rowIdChain, hI1, hI2, hI3, pyOr]
  have hid2 : rowIdChain r2 = "" := by
    simp [rowIdChain, hJ1, hJ2, hJ3, pyOr]
  constructor
  · intro hEq
    simp only [buildJobBase, resolvedSource, hl1, hl2, hid1, hid2,
      show pyStrip "" = "" from rfl, show canonicalize_url "" = "" from rfl,
      hs1, hs2, if_neg hs1, if_neg hs2] at hEq
    rw [ht1, ht2, ht3, hc1, hc2, hg1, hg2] at hEq
    simp only [ne_eq, not_false_eq_true, if_true, if_false, reduceIte] at hEq
    simp only [String.append_assoc] at hEq
    have h1 := string_append_cancel_left hEq
    have h2 := string_append_cancel_right h1
    exact hsne h2
  · simp only [build_job_uid]
    exact string_mk_inj

/-- Witness for C7 at sources `"a"` and `"b"`. -/
theorem c7_witness :
    buildJobBase { source := "a" } ≠ buildJobBase { source := "b" } ∧
    ((build_job_uid { source := "a" }).1 = (build_job_uid { source := "b" }).1 ↔
      (sha256HexChars (utf8Bytes (buildJobBase { source := "a" }))).take 16 =
        (sha256HexChars (utf8Bytes (buildJobBase { source := "b" }))).take 16) :=
  c7_source_isolation { source := "a" } { source := "b" } rfl rfl rfl rfl rfl rfl
    rfl rfl rfl rfl rfl rfl rfl rfl rfl rfl rfl rfl rfl rfl rfl (by decide)
    (by decide) (by decide)

/-! ## C1 -/

/-- C1 counterexample: a run also assigns `closed` outside the
reconciliation absence step — `close_aggregator_records` closes a fresh
`new` record of an aggregator source at the start of the run, although its
UID was just seen (`missing_runs = 0 < 3`) and no closure threshold was
crossed, and the subsequent reconciliation pass leaves it `closed`. -/
theorem c1_counterexample :
    (stateGet
        (close_aggregator_records
          [("u", { source := "jooble", status := STATUS_NEW })]
          TERMINAL_STATUSES STATUS_CLOSED).1 "u").map (·.status) =
      some STATUS_CLOSED ∧
    ({ source := "jooble", status := STATUS_NEW } : StateRecord).status =
      STATUS_NEW ∧
    ¬ ((0 < (3 : Int) ∧ (3 : Int) ≤
          ({ source := "jooble", status := STATUS_NEW } : StateRecord).missing_runs + 1) ∨
        (0 < (7 : Int) ∧ (7 : Int) ≤ daysMissing 0
          ({ source := "jooble", status := STATUS_NEW } : StateRecord).last_seen_at)) ∧
    (stateGet
        (_merge_payload []
          (close_aggregator_records
            [("u", { source := "jooble", status := STATUS_NEW })]
            TERMINAL_STATUSES STATUS_CLOSED).1 "s" 0 3 7) "u").map (·.status) =
      some STATUS_CLOSED := by
  refine ⟨by decide, rfl, by decide, by decide⟩

/-- C1 (amended): within a run's state-mutating steps, `closed` is assigned
by exactly two operations — `close_aggregator_records`, which closes every
non-terminal record of an aggregator source, and the reconciliation absence
step, which closes only records that are absent from the fresh batch, not
`applied`/`ignored`, and have crossed a positive closure threshold; records
created by the pass are never `closed`; a `closed` record whose UID
reappears is reopened to `notified` when `last_sent_at` is set and to `new`
otherwise, while an absent `closed` record stays untouched; `applied` and
`ignored` records never change status in a pass; and the post-send step
only ever assigns `notified`. -/
theorem c1_closed_lifecycle :
    (∀ (st : JobState) (uid : String) (r : StateRecord),
      stateGet st uid = some r →
      stateGet (close_aggregator_records st TERMINAL_STATUSES STATUS_CLOSED).1
          uid =
        some (if pyLower (pyStrip r.source) ∈ AGGREGATOR_SOURCES ∧
            r.status ∉ TERMINAL_STATUSES
          then { r with status := STATUS_CLOSED } else r)) ∧
    (∀ (payload : List PayloadRow) (st : JobState) (stamp : String)
        (now_dt cmr cnsd : Int) (uid : String) (r r' : StateRecord),
      stateGet st uid = some r →
      stateGet (_merge_payload payload st stamp now_dt cmr cnsd) uid = some r' →
      r'.status = STATUS_CLOSED → r.status ≠ STATUS_CLOSED →
      uid ∉ seenThisRun payload ∧ r.status ≠ STATUS_APPLIED ∧
        r.status ≠ STATUS_IGNORED ∧
        ((0 < cmr ∧ cmr ≤ r.missing_runs + 1) ∨
          (0 < cnsd ∧ cnsd ≤ daysMissing now_dt r.last_seen_at))) ∧
    (∀ (payload : List PayloadRow) (st : JobState) (stamp : String)
        (now_dt cmr cnsd : Int) (uid : String) (r' : StateRecord),
      stateGet st uid = none →
      stateGet (_merge_payload payload st stamp now_dt cmr cnsd) uid = some r' →
      r'.status ≠ STATUS_CLOSED) ∧
    (∀ (payload : List PayloadRow) (st : JobState) (stamp : String)
        (now_dt cmr cnsd : Int) (uid : String) (r : StateRecord),
      stateGet st uid = some r → r.status = STATUS_CLOSED →
      uid ∈ seenThisRun payload →
      (stateGet (_merge_payload payload st stamp now_dt cmr cnsd) uid).map
          (·.status) =
        some (if optTruthy r.last_sent_at then STATUS_NOTIFIED else STATUS_NEW)) ∧
    (∀ (payload : List PayloadRow) (st : JobState) (stamp : String)
        (now_dt cmr cnsd : Int) (uid : String) (r : StateRecord),
      stateGet st uid = some r → r.status = STATUS_CLOSED →
      uid ∉ seenThisRun payload →
      stateGet (_merge_payload payload st stamp now_dt cmr cnsd) uid = some r) ∧
    (∀ (payload : List PayloadRow) (st : JobState) (stamp : String)
        (now_dt cmr cnsd : Int) (uid : String) (r : StateRecord),
      stateGet st uid = some r →
      (r.status = STATUS_APPLIED ∨ r.status = STATUS_IGNORED) →
      (stateGet (_merge_payload payload st stamp now_dt cmr cnsd) uid).map
        (·.status) = some r.status) ∧
    (∀ (dry_run sender_ok : Bool) (send_jobs send_reminders : List String)
        (stamp : String) (st : JobState) (uid : String) (r r' : StateRecord),
      stateGet st uid = some r →
      stateGet (_maybe_send_mail dry_run sender_ok send_jobs send_reminders
          stamp st).1 uid = some r' →
      r'.status = STATUS_CLOSED → r.status = STATUS_CLOSED) := by
  refine ⟨?_, ?_, ?_, ?_, ?_, ?_, ?_⟩
  · intro st uid r hget
    rw [stateGet_closeAggregator TERMINAL_STATUSES STATUS_CLOSED st uid, hget]
    rfl
  · intro payload st stamp now_dt cmr cnsd uid r r' hget hget' hclosed hncl
    by_cases hseen : uid ∈ seenThisRun payload
    · exfalso
      rw [mergePayload_seen_some payload st stamp now_dt cmr cnsd uid r hseen
        hget] at hget'
      have hx := Option.some.inj hget'
      have hne : r'.status ≠ STATUS_CLOSED := by
        rw [← hx, recFold_status, if_neg (mem_seenThisRun.mp hseen)]
        exact statusStep_ne_closed _ _
      exact hne hclosed
    · by_cases hterm : r.status = STATUS_APPLIED ∨ r.status = STATUS_IGNORED ∨
          r.status = STATUS_CLOSED
      · exfalso
        rw [mergePayload_absent_terminal payload st stamp now_dt cmr cnsd uid r
          hseen hget hterm] at hget'
        have hx := Option.some.inj hget'
        rw [← hx] at hclosed
        exact hncl hclosed
      · push_neg at hterm
        obtain ⟨ha, hi, -⟩ := hterm
        refine ⟨hseen, ha, hi, ?_⟩
        rw [mergePayload_absent_open payload st stamp now_dt cmr cnsd uid r hget
          hseen ha hi hncl] at hget'
        have hx := Option.some.inj hget'
        by_contra hcond
        rw [← hx, closeAbsentRecord_status, if_neg hcond] at hclosed
        exact hncl hclosed
  · intro payload st stamp now_dt cmr cnsd uid r' hget hget'
    by_cases hseen : uid ∈ seenThisRun payload
    · obtain ⟨row, rest, -, heq⟩ := mergePayload_seen_none payload st stamp
        now_dt cmr cnsd uid hseen hget
      rw [heq] at hget'
      have hx := Option.some.inj hget'
      rw [← hx, recFold_status, if_neg (List.cons_ne_nil row rest)]
      exact statusStep_ne_closed _ _
    · rw [mergePayload_none payload st stamp now_dt cmr cnsd uid hseen hget]
        at hget'
      cases hget'
  · intro payload st stamp now_dt cmr cnsd uid r hget hcl hseen
    rw [mergePayload_seen_some payload st stamp now_dt cmr cnsd uid r hseen hget]
    simp only [Option.map_some']
    rw [recFold_status, if_neg (mem_seenThisRun.mp hseen), hcl,
      statusStep_closed]
  · intro payload st stamp now_dt cmr cnsd uid r hget hcl hseen
    exact mergePayload_absent_terminal payload st stamp now_dt cmr cnsd uid r
      hseen hget (Or.inr (Or.inr hcl))
  · intro payload st stamp now_dt cmr cnsd uid r hget hst
    exact merge_preserves_user_terminal payload st stamp now_dt cmr cnsd uid r
      hget hst
  · intro dry_run sender_ok send_jobs send_reminders stamp st uid r r' hget
      hget' hclosed
    unfold _maybe_send_mail at hget'
    split_ifs at hget' with h1 h2 h3
    · rw [hget] at hget'
      rw [← Option.some.inj hget'] at hclosed
      exact hclosed
    · rw [hget] at hget'
      rw [← Option.some.inj hget'] at hclosed
      exact hclosed
    · rw [hget] at hget'
      rw [← Option.some.inj hget'] at hclosed
      exact hclosed
    · rw [stateGet_markNotified stamp _ st uid, hget] at hget'
      simp only [Option.map_some'] at hget'
      have hx := Option.some.inj hget'
      by_cases hmem : uid ∈ send_jobs ++ send_reminders
      · exfalso
        rw [if_pos hmem] at hx
        rw [← hx] at hclosed
        simp [STATUS_NOTIFIED, STATUS_CLOSED] at hclosed
      · rw [if_neg hmem] at hx
        rw [← hx] at hclosed
        exact hclosed

/-- Witness for C1: the aggregator-close conjunct at a concrete `new`
`jooble` record, and the reopen conjunct at a concrete absent-then-present
`closed` record of an empty-payload pass (closed record, absent batch —
stays `closed`). -/
theorem c1_witness :
    stateGet
        (close_aggregator_records
          [("u", { source := "jooble", status := STATUS_NEW })]
          TERMINAL_STATUSES STATUS_CLOSED).1 "u" =
      some (if pyLower (pyStrip
            ({ source := "jooble", status := STATUS_NEW } : StateRecord).source) ∈
            AGGREGATOR_SOURCES ∧
          ({ source := "jooble", status := STATUS_NEW } : StateRecord).status ∉
            TERMINAL_STATUSES
        then { ({ source := "jooble", status := STATUS_NEW } : StateRecord) with
          status := STATUS_CLOSED }
        else { source := "jooble", status := STATUS_NEW }) ∧
    stateGet
        (_merge_payload [] [("u", { status := STATUS_CLOSED })] "s" 0 3 7) "u" =
      some { status := STATUS_CLOSED } :=
  ⟨c1_closed_lifecycle.1 [("u", { source := "jooble", status := STATUS_NEW })]
      "u" { source := "jooble", status := STATUS_NEW } (by decide),
   c1_closed_lifecycle.2.2.2.2.1 [] [("u", { status := STATUS_CLOSED })] "s"
      0 3 7 "u" { status := STATUS_CLOSED } (by decide) rfl (by decide)⟩

end Bewerbungsagent
